import Mathlib

/-!
# fmt-my-kindle-notes: the notebook extraction pass (`parse.go`)

A shallow embedding of `parse.go` and the properties of its functions.

Modelling conventions.

* A Go `string` is a `List Char` (a sequence of code points; the input is taken to be
  valid UTF-8, which is what the library functions used here decode). Byte offsets of
  the source (`colorClass[idx+1:]`) become code-point offsets, consistently on both
  sides of every slice.
* `*html.Node` with its `FirstChild`/`NextSibling` links is a tree `Node` carrying the
  list of its children; `n.FirstChild == nil` is `n.children = []`.
* `*Section` and `*Highlight` are `Option Section` and `Option Highlight`, `nil` being
  `none`. The two cursors of `Parse` point to freshly allocated values that are written
  only before they are appended, so a value copy is what the pointer denotes.
* A nil-pointer dereference is a run-time panic: functions that can dereference return
  `Except Panic _`.
* `int` is the 64-bit Go `int`.
-/

namespace KindleNotes

/-! ## Go strings -/

/-- A Go string, as its sequence of code points. -/
abbrev GoString := List Char

/-- Go `unicode.IsSpace`: the Latin-1 spaces and the `White_Space` table above Latin-1. -/
def IsSpace (r : Char) : Bool :=
  let n := r.toNat
  if n ≤ 0xFF then
    n == 0x09 || n == 0x0A || n == 0x0B || n == 0x0C || n == 0x0D || n == 0x20
      || n == 0x85 || n == 0xA0
  else
    n == 0x1680 || (0x2000 ≤ n && n ≤ 0x200A) || n == 0x2028 || n == 0x2029
      || n == 0x202F || n == 0x205F || n == 0x3000

/-- Go `strings.TrimLeftFunc`. -/
def TrimLeftFunc (s : GoString) (f : Char → Bool) : GoString :=
  s.dropWhile f

/-- Go `strings.TrimRightFunc`. -/
def TrimRightFunc (s : GoString) (f : Char → Bool) : GoString :=
  (s.reverse.dropWhile f).reverse

/-- Go `strings.TrimFunc`. -/
def TrimFunc (s : GoString) (f : Char → Bool) : GoString :=
  TrimRightFunc (TrimLeftFunc s f) f

/-- Go `strings.TrimSpace`: on valid UTF-8 its ASCII fast path agrees with
`TrimFunc s unicode.IsSpace`. -/
def TrimSpace (s : GoString) : GoString :=
  TrimFunc s IsSpace

/-- Go `strings.HasPrefix`. -/
def HasPrefix : GoString → GoString → Bool
  | _, [] => true
  | [], _ :: _ => false
  | c :: s, p :: ps => c == p && HasPrefix s ps

/-- Go `strings.IndexRune`: the offset of the first `r` in `s`, or `-1`. -/
def IndexRune : GoString → Char → Int
  | [], _ => -1
  | c :: s, r =>
    if c = r then 0
    else
      let i := IndexRune s r
      if i = -1 then -1 else i + 1

/-- The Go slice expression `s[i:]` for `0 ≤ i ≤ len(s)`. -/
def sliceFrom (s : GoString) (i : Int) : GoString :=
  s.drop i.toNat

/-! ## `strconv.Atoi` -/

/-- Size of the Go `int` in bits. -/
def intSize : Nat := 64

/-- Largest value of the Go `int`. -/
def maxInt : Int := 2 ^ (intSize - 1) - 1

/-- Smallest value of the Go `int`. -/
def minInt : Int := -(2 ^ (intSize - 1))

/-- The `Err` field of a `*strconv.NumError`. -/
inductive NumError
  | ErrSyntax
  | ErrRange
  deriving DecidableEq, Repr

/-- The regexp class `\d`: an ASCII decimal digit. -/
def isDigit (c : Char) : Bool :=
  0x30 ≤ c.toNat && c.toNat ≤ 0x39

/-- Value of a decimal digit. -/
def digitVal (c : Char) : Nat :=
  c.toNat - 0x30

/-- Base-10 accumulation over a digit string, most significant digit first. -/
def decimalValue (s : GoString) : Nat :=
  s.foldl (fun acc c => 10 * acc + digitVal c) 0

/-- Go `strconv.Atoi` (base 10, without underscores): an optional sign, then one or
more decimal digits. A malformed string gives `(0, ErrSyntax)`; a value outside `int`
gives the nearest bound and `ErrRange`. -/
def Atoi (s : GoString) : Int × Option NumError :=
  let (neg, body) :=
    match s with
    | '+' :: t => (false, t)
    | '-' :: t => (true, t)
    | _ => (false, s)
  if body.isEmpty || !body.all isDigit then (0, some NumError.ErrSyntax)
  else
    let v : Int := decimalValue body
    if neg then
      if -v < minInt then (minInt, some NumError.ErrRange) else (-v, none)
    else
      if v > maxInt then (maxInt, some NumError.ErrRange) else (v, none)

/-! ## The regular expressions -/

/-- Go `FindStringSubmatch` for a pattern of the shape `lit(\d+)`, as `reExtractLocation`
and `reExtractPage` are: the capture group of the leftmost match, which is the longest
digit run after the first place where `lit` is followed by a digit; `none` (a nil slice)
when there is no match. -/
def findLitDigits (lit : GoString) : GoString → Option GoString
  | [] => none
  | c :: s =>
    if HasPrefix (c :: s) lit && ((c :: s).drop lit.length).head?.any isDigit then
      some (((c :: s).drop lit.length).takeWhile isDigit)
    else findLitDigits lit s

/-- Capture of `reExtractLocation = regexp.MustCompile("Location (\d+)")`. -/
def reExtractLocation (s : GoString) : Option GoString :=
  findLitDigits "Location ".toList s

/-- Capture of `reExtractPage = regexp.MustCompile("Page (\d+)")`. -/
def reExtractPage (s : GoString) : Option GoString :=
  findLitDigits "Page ".toList s

/-! ## The markup tree (`golang.org/x/net/html`) -/

/-- The `html.NodeType` constants. -/
inductive NodeType
  | ErrorNode
  | TextNode
  | DocumentNode
  | ElementNode
  | CommentNode
  | DoctypeNode
  | RawNode
  deriving DecidableEq, Repr

/-- An `html.Attribute`. -/
structure Attribute where
  Namespace : GoString
  Key : GoString
  Val : GoString
  deriving DecidableEq, Repr

/-- An `html.Node`: its type, its `Data` (the text of a text node, the tag of an
element), its attributes and its children in sibling order. -/
inductive Node
  | mk (type : NodeType) (data : GoString) (attr : List Attribute) (children : List Node)

namespace Node

/-- The field `n.Type`. -/
def type : Node → NodeType
  | mk t _ _ _ => t

/-- The field `n.Data`. -/
def data : Node → GoString
  | mk _ d _ _ => d

/-- The field `n.Attr`. -/
def attr : Node → List Attribute
  | mk _ _ a _ => a

/-- The chain `n.FirstChild`, `.NextSibling`, ... -/
def children : Node → List Node
  | mk _ _ _ cs => cs

end Node

/-- The run-time panics of the program. -/
inductive Panic
  | nilDereference
  deriving DecidableEq, Repr

/-- The expression `n.FirstChild.Data`, which panics when `n` has no child. -/
def firstChildData (n : Node) : Except Panic GoString :=
  match n.children with
  | [] => .error Panic.nilDereference
  | c :: _ => .ok c.data

/-! ## `parse.go` -/

def SectionClass : GoString := "sectionHeading".toList
def HighlightClass : GoString := "noteHeading".toList
def NoteTextClass : GoString := "noteText".toList
def AuthorClass : GoString := "authors".toList
def TitleClass : GoString := "bookTitle".toList

structure Highlight where
  Color : GoString
  Page : Int
  Location : Int
  Text : GoString
  Note : GoString
  deriving DecidableEq, Repr

structure Section where
  Title : GoString
  Highlights : List (Option Highlight)
  deriving DecidableEq, Repr

structure Notebook where
  Title : GoString
  Author : GoString
  Sections : List (Option Section)
  deriving DecidableEq, Repr

/-- The errors `Parse` returns. -/
inductive ParseError
  | ErrNoBodyContainer
  deriving DecidableEq, Repr

/-- The function `getClassAttr`: the value of the first attribute with key `class`, or the
empty string. -/
def getClassAttrOf : List Attribute → GoString
  | [] => []
  | a :: as => if a.Key = "class".toList then a.Val else getClassAttrOf as

def getClassAttr (n : Node) : GoString :=
  getClassAttrOf n.attr

/-- The attribute loop of `findFirstNodeByClass`: some attribute has key `class` and
value `className`. -/
def hasClassAttr (attrs : List Attribute) (className : GoString) : Bool :=
  attrs.any (fun a => a.Key = "class".toList && a.Val = className)

mutual
/-- The function `findFirstNodeByClass`. -/
def findFirstNodeByClass : Node → GoString → Option Node
  | Node.mk t d a cs, className =>
    if t = NodeType.ElementNode && hasClassAttr a className then some (Node.mk t d a cs)
    else findFirstInChildren cs className
/-- The child loop of `findFirstNodeByClass`. -/
def findFirstInChildren : List Node → GoString → Option Node
  | [], _ => none
  | c :: cs, className =>
    match findFirstNodeByClass c className with
    | some nc => some nc
    | none => findFirstInChildren cs className
end

/-- The zero value of `Highlight` (`var h Highlight`). -/
def Highlight.zero : Highlight :=
  { Color := [], Page := 0, Location := 0, Text := [], Note := [] }

/-- One iteration of the child loop of `parseHighlightNode`: a text child sets `Location`
and `Page` from the two patterns (the `Atoi` error is dropped, as in the source), an
element child sets `Color` from its class label; other children are skipped. -/
def parseHighlightChild (h : Highlight) (c : Node) : Highlight :=
  match c.type with
  | NodeType.TextNode =>
    let h1 :=
      match reExtractLocation c.data with
      | some m => { h with Location := (Atoi m).1 }
      | none => h
    match reExtractPage c.data with
    | some m => { h1 with Page := (Atoi m).1 }
    | none => h1
  | NodeType.ElementNode =>
    let colorClass := getClassAttr c
    let idx := IndexRune colorClass '_'
    if idx ≠ -1 then { h with Color := sliceFrom colorClass (idx + 1) } else h
  | _ => h

/-- The function `parseHighlightNode`. -/
def parseHighlightNode (n : Node) : Highlight :=
  n.children.foldl parseHighlightChild Highlight.zero

/-- The function `parseTextNode`. -/
def parseTextNode (n : Node) : Except Panic GoString :=
  if getClassAttr n ≠ NoteTextClass then .ok []
  else
    match firstChildData n with
    | .error e => .error e
    | .ok d => .ok (TrimSpace d)

/-- The receiver and the local variables of `Parse` during the traversal. -/
structure ParseState where
  nb : Notebook
  crtSection : Option Section
  crtHighlight : Option Highlight
  insideNote : Bool
  deriving DecidableEq, Repr

/-- The statement pair `crtSection.Highlights = append(crtSection.Highlights, crtHighlight)`,
`nb.Sections = append(nb.Sections, crtSection)` for a non-nil `crtSection`. -/
def flushSection (nb : Notebook) (sec : Section) (crtHighlight : Option Highlight) : Notebook :=
  { nb with
    Sections := nb.Sections ++ [some { sec with Highlights := sec.Highlights ++ [crtHighlight] }] }

/-- The body of the traversal loop of `Parse` for one child `c` of the container. -/
def parseChild (st : ParseState) (c : Node) : Except Panic ParseState :=
  if c.type ≠ NodeType.ElementNode then .ok st
  else if getClassAttr c = SectionClass then
    let st1 : ParseState :=
      match st.crtSection with
      | some sec => { st with nb := flushSection st.nb sec st.crtHighlight, crtHighlight := none }
      | none => st
    match firstChildData c with
    | .error e => .error e
    | .ok d => .ok { st1 with crtSection := some { Title := TrimSpace d, Highlights := [] } }
  else if getClassAttr c = HighlightClass then
    match firstChildData c with
    | .error e => .error e
    | .ok d =>
      let highlightText := TrimLeftFunc d IsSpace
      if HasPrefix highlightText "Highlight".toList then
        match st.crtHighlight with
        | some h =>
          match st.crtSection with
          | none => .error Panic.nilDereference
          | some sec =>
            .ok { st with
                  crtSection := some { sec with Highlights := sec.Highlights ++ [some h] },
                  crtHighlight := some (parseHighlightNode c) }
        | none => .ok { st with crtHighlight := some (parseHighlightNode c) }
      else if HasPrefix highlightText "Note".toList then .ok { st with insideNote := true }
      else .ok st
  else if getClassAttr c = NoteTextClass then
    match parseTextNode c with
    | .error e => .error e
    | .ok text =>
      match st.crtHighlight with
      | none => .error Panic.nilDereference
      | some h =>
        if st.insideNote then
          .ok { st with crtHighlight := some { h with Note := text }, insideNote := false }
        else .ok { st with crtHighlight := some { h with Text := text } }
  else if getClassAttr c = AuthorClass then
    match firstChildData c with
    | .error e => .error e
    | .ok d => .ok { st with nb := { st.nb with Author := TrimSpace d } }
  else if getClassAttr c = TitleClass then
    match firstChildData c with
    | .error e => .error e
    | .ok d => .ok { st with nb := { st.nb with Title := TrimSpace d } }
  else .ok st

/-- The traversal loop of `Parse` over the children of the container. -/
def parseLoop (st : ParseState) : List Node → Except Panic ParseState
  | [] => .ok st
  | c :: cs =>
    match parseChild st c with
    | .error e => .error e
    | .ok st1 => parseLoop st1 cs

/-- The two statements after the loop ("Append last highlight and section"). -/
def parseFinish (st : ParseState) : Except Panic Notebook :=
  match st.crtSection with
  | none => .error Panic.nilDereference
  | some sec => .ok (flushSection st.nb sec st.crtHighlight)

/-- The state of `Parse` when the loop starts. -/
def ParseState.init (nb : Notebook) : ParseState :=
  { nb := nb, crtSection := none, crtHighlight := none, insideNote := false }

/-- The method `Notebook.Parse`: the returned error (`none` is `nil`) and the notebook
after the call, or a panic. -/
def Parse (nb : Notebook) (htmlNotebook : Node) :
    Except Panic (Option ParseError × Notebook) :=
  match findFirstNodeByClass htmlNotebook "bodyContainer".toList with
  | none => .ok (some ParseError.ErrNoBodyContainer, nb)
  | some bc =>
    match parseLoop (ParseState.init nb) bc.children with
    | .error e => .error e
    | .ok st =>
      match parseFinish st with
      | .error e => .error e
      | .ok nb1 => .ok (none, nb1)

/-- The zero value of `Notebook` (`var notebook Notebook` in `main`). -/
def Notebook.empty : Notebook :=
  { Title := [], Author := [], Sections := [] }

/-! ## Vocabulary of the properties -/

mutual
/-- The nodes of a tree in document order (pre-order, depth first). -/
def preorder : Node → List Node
  | Node.mk t d a cs => Node.mk t d a cs :: preorderList cs
/-- Document order over a list of siblings. -/
def preorderList : List Node → List Node
  | [] => []
  | c :: cs => preorder c ++ preorderList cs
end

/-- An element node carrying an attribute with key `class` and value `className`. -/
def carriesClass (className : GoString) (n : Node) : Bool :=
  n.type = NodeType.ElementNode && hasClassAttr n.attr className

/-- A direct child that `Parse` treats as a section marker. -/
def isSectionMarker (c : Node) : Bool :=
  c.type = NodeType.ElementNode && getClassAttr c = SectionClass

/-- A text node with the given text. -/
def textNode (s : String) : Node :=
  Node.mk NodeType.TextNode s.toList [] []

/-- An element `<tag class="cls">` with the given children. -/
def elemNode (tag cls : String) (children : List Node) : Node :=
  Node.mk NodeType.ElementNode tag.toList
    [{ Namespace := [], Key := "class".toList, Val := cls.toList }] children

/-- A document whose body holds the container with the given children. -/
def docOf (children : List Node) : Node :=
  Node.mk NodeType.DocumentNode [] [] [Node.mk NodeType.ElementNode "html".toList []
    [Node.mk NodeType.ElementNode "body".toList [] [elemNode "div" "bodyContainer" children]]]

/-- Sections appended so far, counting the one under construction. -/
def sectionsStarted (st : ParseState) : Nat :=
  st.nb.Sections.length + (if st.crtSection.isSome then 1 else 0)

/-- Two section markers, the first with one highlight, the second with none. -/
def docTwoSections : Node := docOf
  [ textNode "\n",
    elemNode "div" "sectionHeading" [textNode " Ch 1\n"],
    elemNode "div" "noteHeading" [textNode "Highlight(", elemNode "span" "highlight_blue" [],
      textNode ") - Location 2364"],
    elemNode "div" "noteText" [textNode "second"],
    elemNode "div" "sectionHeading" [textNode " Ch 2\n"] ]

/-- The text of a marker: the `Data` of its first child (empty without a child). -/
def firstChildText (c : Node) : GoString :=
  match c.children with
  | [] => []
  | x :: _ => x.data

/-- An element child of class `cls` that has a first child. -/
def isMarker (cls : GoString) (c : Node) : Bool :=
  c.type = NodeType.ElementNode && getClassAttr c = cls && !c.children.isEmpty

/-- A `noteHeading` marker whose text, leading white space apart, starts with `word`. -/
def isHeader (word : GoString) (c : Node) : Bool :=
  isMarker HighlightClass c && HasPrefix (TrimLeftFunc (firstChildText c) IsSpace) word

/-- A highlight item of a well-formed document: a `Highlight` header, its text body and,
optionally, a `Note` header with the note's text body. -/
structure Item where
  header : Node
  body : Node
  note : Option (Node × Node)

/-- A group of a well-formed document: a section marker and the items that follow it. -/
structure Group where
  marker : Node
  items : List Item

/-- The children an item consists of, in document order. -/
def Item.nodes (it : Item) : List Node :=
  it.header :: it.body ::
    (match it.note with
     | none => []
     | some (nh, nt) => [nh, nt])

/-- The children a group consists of, in document order. -/
def Group.nodes (g : Group) : List Node :=
  g.marker :: g.items.flatMap Item.nodes

/-- The shape of an item: the header starts with `Highlight`, the body is a `noteText`
marker, and a note is a header starting with `Note` followed by a `noteText` marker. -/
def Item.wellFormed (it : Item) : Bool :=
  isHeader "Highlight".toList it.header && isMarker NoteTextClass it.body &&
    (match it.note with
     | none => true
     | some (nh, nt) => isHeader "Note".toList nh && isMarker NoteTextClass nt)

/-- The shape of a group: a `sectionHeading` marker followed by one or more items. -/
def Group.wellFormed (g : Group) : Bool :=
  isMarker SectionClass g.marker && !g.items.isEmpty && g.items.all Item.wellFormed

/-- The trimmed text of an item's note body, the empty string for an item without note. -/
def Item.noteText (it : Item) : GoString :=
  match it.note with
  | none => []
  | some (_, nt) => TrimSpace (firstChildText nt)

/-- The highlight an item stands for. -/
def Item.highlight (it : Item) : Highlight :=
  { parseHighlightNode it.header with
    Text := TrimSpace (firstChildText it.body)
    Note := it.noteText }

/-- The section a group stands for. -/
def Group.section (g : Group) : Section :=
  { Title := TrimSpace (firstChildText g.marker)
    Highlights := g.items.map (fun it => some it.highlight) }

/-- The section list `Parse` would return if the traversal stopped in state `st`: the
sections appended so far and, when a section is under construction, that section with
the current highlight appended. -/
def sectionsView (st : ParseState) : List (Option Section) :=
  st.nb.Sections ++
    (match st.crtSection with
     | none => []
     | some sec => [some { sec with Highlights := sec.Highlights ++ [st.crtHighlight] }])

/-- The highlights of the section under construction, the current one included when there
is one. -/
def pendingHighlights (sec : Section) (h : Option Highlight) : List (Option Highlight) :=
  sec.Highlights ++ h.toList.map some

/-- A state between two groups: no note is awaited, and a current highlight exists
exactly when a current section does. -/
def ParseState.settled (st : ParseState) : Prop :=
  st.insideNote = false ∧ (st.crtSection.isSome = st.crtHighlight.isSome)

/-! ### The end-to-end scenario -/

/-- The header of the first highlight of the scenario, with a page and a location. -/
def scenarioHeader1 : Node :=
  elemNode "div" "noteHeading"
    [ textNode "\n Highlight(", elemNode "span" "highlight_yellow" [textNode "yellow"],
      textNode ") - Ch 1 > Page 115 · Location 954\n" ]

/-- The header of the second highlight of the scenario, with a location only. -/
def scenarioHeader2 : Node :=
  elemNode "div" "noteHeading"
    [ textNode "Highlight (", elemNode "span" "highlight_blue" [textNode "blue"],
      textNode ") -  Location 2364" ]

/-- The one group of the scenario: section `Ch 1` with two highlights, the first with a
note. -/
def scenarioGroup : Group :=
  { marker := elemNode "div" "sectionHeading" [textNode " Ch 1\n"]
    items :=
      [ { header := scenarioHeader1
          body := elemNode "div" "noteText" [textNode " some text \n"]
          note := some (elemNode "div" "noteHeading" [textNode "Note - Ch 1 > Location 954"],
                        elemNode "div" "noteText" [textNode " my note \n"]) },
        { header := scenarioHeader2
          body := elemNode "div" "noteText" [textNode "second"]
          note := none } ] }

/-- The title and author markers of the scenario. -/
def scenarioPreamble : List Node :=
  [ elemNode "div" "bookTitle" [textNode " My Book\n"],
    elemNode "div" "authors" [textNode " J. Doe\n"] ]

/-- The container of the scenario, its element children separated by white-space text. -/
def scenarioContainer : Node :=
  elemNode "div" "bodyContainer"
    (textNode "\n" :: (scenarioPreamble ++ textNode "\n" :: scenarioGroup.nodes))

/-- The document of the scenario. -/
def scenarioDoc : Node :=
  Node.mk NodeType.DocumentNode [] [] [Node.mk NodeType.ElementNode "html".toList []
    [Node.mk NodeType.ElementNode "body".toList [] [scenarioContainer]]]

/-- A section `A` without any highlight header, followed by a section `B` with one. -/
def docEmptySection : Node := docOf
  [ elemNode "div" "sectionHeading" [textNode "A"],
    elemNode "div" "sectionHeading" [textNode "B"],
    elemNode "div" "noteHeading" [textNode "Highlight(", elemNode "span" "highlight_pink" [],
      textNode ") - Location 7"],
    elemNode "div" "noteText" [textNode "x"] ]

/-- A traversal state with section `Ch 1` under construction and a current highlight. -/
def stateWithHighlight : ParseState :=
  { nb := { Title := "My Book".toList, Author := [], Sections := [] }
    crtSection := some { Title := "Ch 1".toList, Highlights := [] }
    crtHighlight := some { Color := "yellow".toList, Page := 115, Location := 954,
                           Text := "some text".toList, Note := [] }
    insideNote := false }

/-! ### Occurrences of a pattern `lit(\d+)` -/

/-- At offset `i` of `s` the literal `lit` starts and is followed by a digit. -/
def occursAt (lit s : GoString) (i : Nat) : Bool :=
  HasPrefix (s.drop i) lit && ((s.drop i).drop lit.length).head?.any isDigit

/-- The longest digit run after the literal that starts at offset `i`. -/
def digitRunAt (lit s : GoString) (i : Nat) : GoString :=
  ((s.drop i).drop lit.length).takeWhile isDigit

/-- The offsets of `s` at which `lit` followed by a digit occurs, in increasing order. -/
def occurrences (lit s : GoString) : List Nat :=
  (List.range s.length).filter (occursAt lit s)

/-- The text children of a node, in document order. -/
def textChildren (n : Node) : List Node :=
  n.children.filter (fun c => c.type = NodeType.TextNode)

/-- The digit runs of all occurrences of `lit` followed by digits in the text children of
`n`, taken together in document order. -/
def digitRunsIn (lit : GoString) (n : Node) : List GoString :=
  (textChildren n).flatMap (fun c => (occurrences lit c.data).map (digitRunAt lit c.data))

/-- What a pattern captures in each text node of `cs` where it matches, in document
order. -/
def textMatches (re : GoString → Option GoString) (cs : List Node) : List GoString :=
  (cs.filter (fun c => c.type = NodeType.TextNode)).filterMap (fun c => re c.data)

/-- The header of the source's second example, with a page and a location. -/
def headerPageLocation : Node :=
  elemNode "div" "noteHeading"
    [ textNode "\n    Highlight(", elemNode "span" "highlight_yellow" [textNode "yellow"],
      textNode ") - 10. Scientists as Explorers of the Universe  > Page 115 · Location 954\n" ]

/-- The header of the source's first example, with a location only. -/
def headerLocationOnly : Node :=
  elemNode "div" "noteHeading"
    [ textNode "\n    Highlight (", elemNode "span" "highlight_yellow" [textNode "yellow"],
      textNode ") -  Location 2364\n" ]

/-- A header whose location has one digit more than an `int` holds. -/
def headerHugeLocation : Node :=
  elemNode "div" "noteHeading"
    [ textNode "Highlight(", elemNode "span" "highlight_yellow" [textNode "yellow"],
      textNode ") - Location 9223372036854775808" ]

/-- A header whose colour class has two underscores. -/
def headerLightBlue : Node :=
  elemNode "div" "noteHeading"
    [ textNode "Highlight(", elemNode "span" "highlight_light_blue" [textNode "blue"],
      textNode ") - Location 12" ]

/-- A header whose colour class has no underscore. -/
def headerPlainClass : Node :=
  elemNode "div" "noteHeading"
    [ textNode "Highlight(", elemNode "span" "yellow" [textNode "yellow"],
      textNode ") - Location 12" ]

/-- A header whose colour element has no `class` attribute. -/
def headerNoClass : Node :=
  elemNode "div" "noteHeading"
    [ textNode "Highlight(",
      Node.mk NodeType.ElementNode "span".toList
        [{ Namespace := [], Key := "id".toList, Val := "highlight_yellow".toList }]
        [textNode "yellow"],
      textNode ") - Location 12" ]

/-! ### Documents of the later properties -/

/-- A highlight with its body placed before the first section marker. -/
def strayItem : Item :=
  { header := elemNode "div" "noteHeading"
      [ textNode "Highlight(", elemNode "span" "highlight_orange" [textNode "orange"],
        textNode ") - Location 3" ]
    body := elemNode "div" "noteText" [textNode " stray "]
    note := none }

/-- A document that starts with `strayItem`, followed by the scenario's one group. -/
def docStrayHighlight : Node :=
  docOf (strayItem.nodes ++ scenarioGroup.nodes)

/-- A section with one highlight, then a `Note` header that is followed by a second
`Highlight` header before the text body arrives. -/
def docNoteThenHighlight : Node := docOf
  [ elemNode "div" "sectionHeading" [textNode "Ch 1"],
    elemNode "div" "noteHeading" [textNode "Highlight(",
      elemNode "span" "highlight_yellow" [textNode "yellow"], textNode ") - Location 10"],
    elemNode "div" "noteText" [textNode "first"],
    elemNode "div" "noteHeading" [textNode "Note - Location 10"],
    elemNode "div" "noteHeading" [textNode "Highlight(",
      elemNode "span" "highlight_blue" [textNode "blue"], textNode ") - Location 20"],
    elemNode "div" "noteText" [textNode " late text "] ]

/-- An element child whose class label is `cls`. -/
def hasClassLabel (cls : GoString) (c : Node) : Bool :=
  c.type = NodeType.ElementNode && getClassAttr c = cls

/-- The trimmed text of the last child of class `cls` among `cs`, or `dflt` when there is
no such child. -/
def lastMarkerText (cls : GoString) (cs : List Node) (dflt : GoString) : GoString :=
  (((cs.filter (hasClassLabel cls)).getLast?).map (fun c => TrimSpace (firstChildText c))).getD
    dflt

/-- A header with two text children: one occurrence of `Location` in the first, two in
the second. -/
def headerManyLocations : Node :=
  elemNode "div" "noteHeading"
    [ textNode "Highlight - Location 1", elemNode "span" "highlight_yellow" [],
      textNode " Page 7 - Location 2 - Location 3 - Page 8" ]

/-- A header with one text child that holds two occurrences of `Location`. -/
def headerTwoLocations : Node :=
  elemNode "div" "noteHeading"
    [ textNode "Highlight - Page 4 - Location 1 - Location 2 - Page 5" ]

/-- A document with two title markers and one author marker around a section. -/
def docTwoTitles : Node := docOf
  [ elemNode "div" "bookTitle" [textNode " Draft "],
    elemNode "div" "sectionHeading" [textNode "Ch 1"],
    elemNode "div" "authors" [textNode " J. Doe\n"],
    elemNode "div" "bookTitle" [textNode "\n My Book "] ]

/-- A document whose container holds one section marker and nothing else. -/
def docLoneSection : Node := docOf
  [ elemNode "div" "sectionHeading" [textNode "A"] ]

/-- A document whose container has no children. -/
def docEmptyContainer : Node := docOf []

/-- The five class labels `Parse` dispatches on. -/
def recognizedClasses : List GoString :=
  [SectionClass, HighlightClass, NoteTextClass, AuthorClass, TitleClass]

/-- A document whose container starts with a text body, before any highlight header. -/
def docTextBeforeHighlight : Node := docOf
  [ elemNode "div" "sectionHeading" [textNode "A"],
    elemNode "div" "noteText" [textNode "orphan"],
    elemNode "div" "noteHeading" [textNode "Highlight - Location 1"] ]

/-- A document with an author marker that has no child. -/
def docChildlessAuthor : Node := docOf
  [ elemNode "div" "sectionHeading" [textNode "A"],
    elemNode "div" "authors" [] ]

/-! ### Edits of the container's children -/

mutual
/-- The document in which the children `cs` of the body container (the node that
`findFirstNodeByClass` returns for `bodyContainer`) are replaced by `f cs`; a document
without container is left as it is. -/
def editContainer (f : List Node → List Node) : Node → Node
  | Node.mk t d a cs =>
    if t = NodeType.ElementNode && hasClassAttr a "bodyContainer".toList then
      Node.mk t d a (f cs)
    else Node.mk t d a (editContainerIn f cs)
/-- The edit of `editContainer` in the first of the siblings that holds the container. -/
def editContainerIn (f : List Node → List Node) : List Node → List Node
  | [] => []
  | c :: cs =>
    if (findFirstNodeByClass c "bodyContainer".toList).isSome then editContainer f c :: cs
    else c :: editContainerIn f cs
end

/-- The list `cs` with `x` inserted before position `i` (at the end when `i` is past it). -/
def insertAt (i : Nat) (x : Node) (cs : List Node) : List Node :=
  cs.take i ++ x :: cs.drop i

/-- The list `cs` with `g` applied to the child at position `i`. -/
def modifyAt (g : Node → Node) : Nat → List Node → List Node
  | _, [] => []
  | 0, c :: cs => g c :: cs
  | i + 1, c :: cs => c :: modifyAt g i cs

/-- A child that the traversal is said to ignore: a node that is not an element, an
element whose class label is none of the five recognized ones, or a `noteHeading` element
whose first child's text, leading white space apart, starts with neither `Highlight` nor
`Note`. -/
def ignoredChild (x : Node) : Bool :=
  decide (x.type ≠ NodeType.ElementNode) || decide (getClassAttr x ∉ recognizedClasses) ||
    (decide (getClassAttr x = HighlightClass) && !x.children.isEmpty &&
      !HasPrefix (TrimLeftFunc (firstChildText x) IsSpace) "Highlight".toList &&
      !HasPrefix (TrimLeftFunc (firstChildText x) IsSpace) "Note".toList)

/-- The node `c` with the text `t` of its first child replaced by `w1 ++ t ++ w2`. -/
def padFirstChild (w1 w2 : GoString) : Node → Node
  | Node.mk t d a [] => Node.mk t d a []
  | Node.mk t d a (x :: xs) =>
    Node.mk t d a (Node.mk x.type (w1 ++ x.data ++ w2) x.attr x.children :: xs)

/-- White space around the first-child text of a `bookTitle`, `authors`, `sectionHeading`
or `noteText` child, and in front of the first-child text of a `noteHeading` child; other
nodes are left as they are. -/
def padChild (w1 w2 : GoString) (c : Node) : Node :=
  if c.type = NodeType.ElementNode ∧
      getClassAttr c ∈ [TitleClass, AuthorClass, SectionClass, NoteTextClass] then
    padFirstChild w1 w2 c
  else if c.type = NodeType.ElementNode ∧ getClassAttr c = HighlightClass then
    padFirstChild w1 [] c
  else c

/-- A string without leading and trailing white space. -/
def isTrimmed (s : GoString) : Prop :=
  (∀ c, s.head? = some c → IsSpace c = false) ∧ (∀ c, s.getLast? = some c → IsSpace c = false)

/-- The scenario document with a comment, an unlabelled element, an element of another
class and a `noteHeading` with an unknown first word inserted among the children. -/
def scenarioWithIgnored : Node :=
  editContainer (insertAt 0 (Node.mk NodeType.CommentNode " c ".toList [] []))
    (editContainer (insertAt 3 (Node.mk NodeType.ElementNode "hr".toList [] []))
      (editContainer (insertAt 5 (elemNode "div" "bodyContainer" [textNode "x"]))
        (editContainer (insertAt 7 (elemNode "div" "noteHeading" [textNode " Bookmark - 3"]))
          scenarioDoc)))

/-- The text fields of a highlight have no leading and no trailing white space. -/
def Highlight.trimmed (h : Highlight) : Prop :=
  isTrimmed h.Text ∧ isTrimmed h.Note

/-- The title of a section and the text fields of its highlights have no leading and no
trailing white space. -/
def Section.trimmed (s : Section) : Prop :=
  isTrimmed s.Title ∧ ∀ h, some h ∈ s.Highlights → h.trimmed

/-- The text fields of a notebook have no leading and no trailing white space. -/
def Notebook.trimmed (nb : Notebook) : Prop :=
  isTrimmed nb.Title ∧ isTrimmed nb.Author ∧ ∀ s, some s ∈ nb.Sections → s.trimmed

/-- The text fields of the notebook and of the two cursors have no leading and no trailing
white space. -/
def ParseState.trimmed (st : ParseState) : Prop :=
  st.nb.trimmed ∧ (∀ s, st.crtSection = some s → s.trimmed) ∧
    (∀ h, st.crtHighlight = some h → h.trimmed)

/-- The scenario document with white space added around the title, the section title
and a text body, and in front of a header. -/
def scenarioPadded : Node :=
  editContainer (modifyAt (padChild "\n\t ".toList "  ".toList) 1)
    (editContainer (modifyAt (padChild " ".toList "\n".toList) 4)
      (editContainer (modifyAt (padChild "\n  ".toList "\t".toList) 5)
        (editContainer (modifyAt (padChild [] " \n".toList) 6) scenarioDoc)))

/-! ### The cursors along the traversal -/

/-- What a child does to the pair (a section has started, a highlight is current): a
section marker starts a section and drops the current highlight, a `Highlight` header
makes a highlight current. -/
def stepFlags (f : Bool × Bool) (c : Node) : Bool × Bool :=
  if hasClassLabel SectionClass c then (true, false)
  else if isHeader "Highlight".toList c then (f.1, true)
  else f

/-- The pair of `stepFlags` after the children `cs`. -/
def cursorFlags (f : Bool × Bool) (cs : List Node) : Bool × Bool :=
  cs.foldl stepFlags f

/-! ## Properties -/

/-! ### The container search -/

mutual
theorem findFirstNodeByClass_eq_find (n : Node) (c : GoString) :
    findFirstNodeByClass n c = (preorder n).find? (carriesClass c) := by
  match n with
  | Node.mk t d a cs =>
    rw [findFirstNodeByClass, preorder, List.find?_cons]
    have ih := findFirstInChildren_eq_find cs c
    by_cases h : (t = NodeType.ElementNode && hasClassAttr a c) = true
    · have h2 : carriesClass c (Node.mk t d a cs) = true := by
        simpa [carriesClass, Node.type, Node.attr] using h
      simp only [h, h2]
      rfl
    · have h2 : carriesClass c (Node.mk t d a cs) = false := by
        simpa [carriesClass, Node.type, Node.attr] using h
      simp only [h, h2, ih]
      rfl
theorem findFirstInChildren_eq_find (cs : List Node) (c : GoString) :
    findFirstInChildren cs c = (preorderList cs).find? (carriesClass c) := by
  match cs with
  | [] => simp [findFirstInChildren, preorderList]
  | x :: xs =>
    rw [findFirstInChildren, preorderList, List.find?_append]
    rw [findFirstNodeByClass_eq_find x c, findFirstInChildren_eq_find xs c]
    cases (preorder x).find? (carriesClass c) <;> simp
end

theorem carriesClass_iff (c : GoString) (n : Node) :
    carriesClass c n = true ↔
      n.type = NodeType.ElementNode ∧ ∃ a ∈ n.attr, a.Key = "class".toList ∧ a.Val = c := by
  simp [carriesClass, hasClassAttr]

theorem findFirstNodeByClass_eq_none_iff (n : Node) (c : GoString) :
    findFirstNodeByClass n c = none ↔
      ¬ ∃ m ∈ preorder n, m.type = NodeType.ElementNode ∧
          ∃ a ∈ m.attr, a.Key = "class".toList ∧ a.Val = c := by
  rw [findFirstNodeByClass_eq_find, List.find?_eq_none]
  constructor
  · rintro h ⟨m, hm, hc⟩
    exact h m hm ((carriesClass_iff c m).2 hc)
  · intro h m hm hc
    exact h ⟨m, hm, (carriesClass_iff c m).1 hc⟩

/-- What `Parse` does once the container is found. -/
theorem parse_of_container (nb : Notebook) (doc bc : Node)
    (h : findFirstNodeByClass doc "bodyContainer".toList = some bc) :
    Parse nb doc =
      match parseLoop (ParseState.init nb) bc.children with
      | .error e => .error e
      | .ok st =>
        match parseFinish st with
        | .error e => .error e
        | .ok nb1 => .ok (none, nb1) := by
  simp only [Parse, h]

theorem parse_of_no_container (nb : Notebook) (doc : Node)
    (h : findFirstNodeByClass doc "bodyContainer".toList = none) :
    Parse nb doc = .ok (some ParseError.ErrNoBodyContainer, nb) := by
  simp only [Parse, h]

theorem parse_error_none_of_container (nb nb1 : Notebook) (doc bc : Node) (e : Option ParseError)
    (h : findFirstNodeByClass doc "bodyContainer".toList = some bc)
    (hp : Parse nb doc = .ok (e, nb1)) : e = none := by
  rw [parse_of_container nb doc bc h] at hp
  repeat' (split at hp)
  all_goals (first | (injection hp with hp; injection hp with h1 h2; exact h1.symm) | (simp at hp))

/-- C2. `Parse` returns `ErrNoBodyContainer` exactly when no node of the document tree is
an element with a `class` attribute of value `bodyContainer`; the notebook is then the one
it was called on; and any error `Parse` returns is `ErrNoBodyContainer`, returned for a
document without the container. -/
theorem C2_parse_errNoBodyContainer (nb : Notebook) (doc : Node) :
    ((∃ nb1, Parse nb doc = .ok (some ParseError.ErrNoBodyContainer, nb1)) ↔
      ¬ ∃ m ∈ preorder doc, m.type = NodeType.ElementNode ∧
          ∃ a ∈ m.attr, a.Key = "class".toList ∧ a.Val = "bodyContainer".toList) ∧
    (∀ nb1, Parse nb doc = .ok (some ParseError.ErrNoBodyContainer, nb1) → nb1 = nb) ∧
    (∀ e nb1, Parse nb doc = .ok (some e, nb1) →
      e = ParseError.ErrNoBodyContainer ∧
        findFirstNodeByClass doc "bodyContainer".toList = none) := by
  have key : ∀ e nb1, Parse nb doc = .ok (some e, nb1) →
      findFirstNodeByClass doc "bodyContainer".toList = none ∧ nb1 = nb := by
    intro e nb1 hp
    cases hf : findFirstNodeByClass doc "bodyContainer".toList with
    | none =>
      rw [parse_of_no_container nb doc hf] at hp
      injection hp with hp
      injection hp with h1 h2
      exact ⟨rfl, h2.symm⟩
    | some bc =>
      have := parse_error_none_of_container nb nb1 doc bc (some e) hf hp
      cases this
  refine ⟨⟨?_, ?_⟩, ?_, ?_⟩
  · rintro ⟨nb1, hp⟩
    exact (findFirstNodeByClass_eq_none_iff doc _).1 (key _ nb1 hp).1
  · intro h
    exact ⟨nb, parse_of_no_container nb doc ((findFirstNodeByClass_eq_none_iff doc _).2 h)⟩
  · intro nb1 hp
    exact (key _ nb1 hp).2
  · intro e nb1 hp
    refine ⟨?_, (key e nb1 hp).1⟩
    cases e
    rfl

/-- C2 at a document whose only element has class `bodyContainers`. -/
theorem C2_parse_errNoBodyContainer_witness :
    ∃ nb1, Parse Notebook.empty (elemNode "div" "bodyContainers" [textNode "x"]) =
      .ok (some ParseError.ErrNoBodyContainer, nb1) :=
  (C2_parse_errNoBodyContainer Notebook.empty
    (elemNode "div" "bodyContainers" [textNode "x"])).1.2 (by decide)

/-! ### One step of the traversal -/

theorem parseChild_of_not_element (st : ParseState) (c : Node)
    (hE : c.type ≠ NodeType.ElementNode) : parseChild st c = .ok st := by
  simp [parseChild, hE]

theorem parseChild_section (st : ParseState) (c : Node) (d : GoString)
    (hE : c.type = NodeType.ElementNode) (hS : getClassAttr c = SectionClass)
    (hd : firstChildData c = .ok d) :
    parseChild st c = .ok
      { nb := match st.crtSection with
          | some sec => flushSection st.nb sec st.crtHighlight
          | none => st.nb
        crtSection := some { Title := TrimSpace d, Highlights := [] }
        crtHighlight := match st.crtSection with
          | some _ => none
          | none => st.crtHighlight
        insideNote := st.insideNote } := by
  simp only [parseChild, hE, hS, hd, ne_eq, not_true_eq_false, if_false, if_true]
  cases st.crtSection <;> rfl

theorem parseChild_section_error (st : ParseState) (c : Node) (e : Panic)
    (hE : c.type = NodeType.ElementNode) (hS : getClassAttr c = SectionClass)
    (hd : firstChildData c = .error e) :
    parseChild st c = .error e := by
  simp only [parseChild, hE, hS, hd, ne_eq, not_true_eq_false, if_false, if_true]

theorem hasPrefix_note_not_highlight (s : GoString)
    (h : HasPrefix s "Note".toList = true) : HasPrefix s "Highlight".toList = false := by
  cases s with
  | nil => simp [HasPrefix] at h
  | cons c s =>
    have h1 : c = 'N' := by
      simp [HasPrefix] at h
      exact h.1
    subst h1
    simp [HasPrefix]

theorem parseChild_highlight_none (st : ParseState) (c : Node) (d : GoString)
    (hE : c.type = NodeType.ElementNode) (hH : getClassAttr c = HighlightClass)
    (hd : firstChildData c = .ok d)
    (hp : HasPrefix (TrimLeftFunc d IsSpace) "Highlight".toList = true)
    (hh : st.crtHighlight = none) :
    parseChild st c = .ok { st with crtHighlight := some (parseHighlightNode c) } := by
  have h1 : ¬ HighlightClass = SectionClass := by decide
  simp only [parseChild, hE, hH, hd, hp, h1, hh, ne_eq, not_true_eq_false, if_false, if_true]

theorem parseChild_highlight_some (st : ParseState) (c : Node) (d : GoString)
    (h : Highlight) (sec : Section)
    (hE : c.type = NodeType.ElementNode) (hH : getClassAttr c = HighlightClass)
    (hd : firstChildData c = .ok d)
    (hp : HasPrefix (TrimLeftFunc d IsSpace) "Highlight".toList = true)
    (hh : st.crtHighlight = some h) (hs : st.crtSection = some sec) :
    parseChild st c = .ok
      { st with
        crtSection := some { sec with Highlights := sec.Highlights ++ [some h] },
        crtHighlight := some (parseHighlightNode c) } := by
  have h1 : ¬ HighlightClass = SectionClass := by decide
  simp only [parseChild, hE, hH, hd, hp, h1, hh, hs, ne_eq, not_true_eq_false, if_false,
    if_true]

theorem parseChild_highlight_panic (st : ParseState) (c : Node) (d : GoString)
    (h : Highlight)
    (hE : c.type = NodeType.ElementNode) (hH : getClassAttr c = HighlightClass)
    (hd : firstChildData c = .ok d)
    (hp : HasPrefix (TrimLeftFunc d IsSpace) "Highlight".toList = true)
    (hh : st.crtHighlight = some h) (hs : st.crtSection = none) :
    parseChild st c = .error Panic.nilDereference := by
  have h1 : ¬ HighlightClass = SectionClass := by decide
  simp only [parseChild, hE, hH, hd, hp, h1, hh, hs, ne_eq, not_true_eq_false, if_false,
    if_true]

theorem parseChild_note (st : ParseState) (c : Node) (d : GoString)
    (hE : c.type = NodeType.ElementNode) (hH : getClassAttr c = HighlightClass)
    (hd : firstChildData c = .ok d)
    (hp : HasPrefix (TrimLeftFunc d IsSpace) "Note".toList = true) :
    parseChild st c = .ok { st with insideNote := true } := by
  have h1 : ¬ HighlightClass = SectionClass := by decide
  have h2 := hasPrefix_note_not_highlight _ hp
  simp only [parseChild, hE, hH, hd, hp, h1, h2, ne_eq, not_true_eq_false, if_false, if_true]
  simp

theorem parseTextNode_of_class (c : Node) (d : GoString)
    (hT : getClassAttr c = NoteTextClass) (hd : firstChildData c = .ok d) :
    parseTextNode c = .ok (TrimSpace d) := by
  simp [parseTextNode, hT, hd]

theorem parseChild_noteText_some (st : ParseState) (c : Node) (text : GoString)
    (h : Highlight)
    (hE : c.type = NodeType.ElementNode) (hT : getClassAttr c = NoteTextClass)
    (hd : parseTextNode c = .ok text) (hh : st.crtHighlight = some h) :
    parseChild st c = .ok
      (if st.insideNote then
        { st with crtHighlight := some { h with Note := text }, insideNote := false }
      else { st with crtHighlight := some { h with Text := text } }) := by
  have h1 : ¬ NoteTextClass = SectionClass := by decide
  have h2 : ¬ NoteTextClass = HighlightClass := by decide
  simp only [parseChild, hE, hT, hd, h1, h2, hh, ne_eq, not_true_eq_false, if_false, if_true]
  cases st.insideNote <;> simp

theorem parseChild_noteText_panic (st : ParseState) (c : Node) (text : GoString)
    (hE : c.type = NodeType.ElementNode) (hT : getClassAttr c = NoteTextClass)
    (hd : parseTextNode c = .ok text) (hh : st.crtHighlight = none) :
    parseChild st c = .error Panic.nilDereference := by
  have h1 : ¬ NoteTextClass = SectionClass := by decide
  have h2 : ¬ NoteTextClass = HighlightClass := by decide
  simp only [parseChild, hE, hT, hd, h1, h2, hh, ne_eq, not_true_eq_false, if_false, if_true]

theorem parseChild_author (st : ParseState) (c : Node) (d : GoString)
    (hE : c.type = NodeType.ElementNode) (hA : getClassAttr c = AuthorClass)
    (hd : firstChildData c = .ok d) :
    parseChild st c = .ok { st with nb := { st.nb with Author := TrimSpace d } } := by
  have h1 : ¬ AuthorClass = SectionClass := by decide
  have h2 : ¬ AuthorClass = HighlightClass := by decide
  have h3 : ¬ AuthorClass = NoteTextClass := by decide
  simp only [parseChild, hE, hA, hd, h1, h2, h3, ne_eq, not_true_eq_false, if_false, if_true]

theorem parseChild_title (st : ParseState) (c : Node) (d : GoString)
    (hE : c.type = NodeType.ElementNode) (hA : getClassAttr c = TitleClass)
    (hd : firstChildData c = .ok d) :
    parseChild st c = .ok { st with nb := { st.nb with Title := TrimSpace d } } := by
  have h1 : ¬ TitleClass = SectionClass := by decide
  have h2 : ¬ TitleClass = HighlightClass := by decide
  have h3 : ¬ TitleClass = NoteTextClass := by decide
  have h4 : ¬ TitleClass = AuthorClass := by decide
  simp only [parseChild, hE, hA, hd, h1, h2, h3, h4, ne_eq, not_true_eq_false, if_false,
    if_true]

/-- A child that is not a section marker leaves the section list alone and keeps the
nil-ness of the current section. -/
theorem parseChild_frame_sections (st st1 : ParseState) (c : Node)
    (hS : isSectionMarker c = false)
    (h : parseChild st c = .ok st1) :
    st1.nb.Sections = st.nb.Sections ∧ st1.crtSection.isSome = st.crtSection.isSome := by
  by_cases hE : c.type = NodeType.ElementNode
  · have hS1 : ¬ getClassAttr c = SectionClass := by
      simpa [isSectionMarker, hE] using hS
    unfold parseChild at h
    simp only [hE, hS1, ne_eq, not_true_eq_false, if_false] at h
    repeat' (split at h)
    all_goals (first | (injection h with h; subst h; simp [*]) | (simp at h))
  · rw [parseChild_of_not_element st c hE] at h
    injection h with h
    subst h
    simp

theorem parseChild_sectionsStarted (st st1 : ParseState) (c : Node)
    (h : parseChild st c = .ok st1) :
    sectionsStarted st1 = sectionsStarted st + (if isSectionMarker c then 1 else 0) := by
  cases hS : isSectionMarker c with
  | false =>
    obtain ⟨h1, h2⟩ := parseChild_frame_sections st st1 c hS h
    simp [sectionsStarted, h1, h2]
  | true =>
    have hE : c.type = NodeType.ElementNode := by
      simp [isSectionMarker] at hS
      exact hS.1
    have hC : getClassAttr c = SectionClass := by
      simp [isSectionMarker] at hS
      exact hS.2
    cases hd : firstChildData c with
    | error e =>
      rw [parseChild_section_error st c e hE hC hd] at h
      cases h
    | ok d =>
      rw [parseChild_section st c d hE hC hd] at h
      injection h with h
      subst h
      cases hs : st.crtSection <;> simp [sectionsStarted, hs, flushSection]

theorem parseLoop_sectionsStarted (cs : List Node) (st st1 : ParseState)
    (h : parseLoop st cs = .ok st1) :
    sectionsStarted st1 = sectionsStarted st + (cs.filter isSectionMarker).length := by
  induction cs generalizing st with
  | nil =>
    simp only [parseLoop] at h
    injection h with h
    subst h
    simp
  | cons c cs ih =>
    simp only [parseLoop] at h
    cases hc : parseChild st c with
    | error e => simp [hc] at h
    | ok st2 =>
      simp only [hc] at h
      rw [ih st2 h, parseChild_sectionsStarted st st2 c hc, List.filter_cons]
      cases isSectionMarker c <;> simp
      omega

theorem parseFinish_length (st : ParseState) (nb1 : Notebook)
    (h : parseFinish st = .ok nb1) : nb1.Sections.length = sectionsStarted st := by
  unfold parseFinish at h
  cases hs : st.crtSection with
  | none => simp [hs] at h
  | some sec =>
    simp only [hs] at h
    injection h with h
    subst h
    simp [sectionsStarted, hs, flushSection]

/-- C3. When the container `bc` exists and `Parse`, run on the empty notebook, completes,
the notebook has as many sections as `bc` has direct element children of class
`sectionHeading`. -/
theorem C3_sections_count (doc bc : Node) (e : Option ParseError) (nb1 : Notebook)
    (hbc : findFirstNodeByClass doc "bodyContainer".toList = some bc)
    (hp : Parse Notebook.empty doc = .ok (e, nb1)) :
    nb1.Sections.length =
      (bc.children.filter
        (fun c => c.type = NodeType.ElementNode && getClassAttr c = SectionClass)).length := by
  simp only [Parse, hbc] at hp
  cases hl : parseLoop (ParseState.init Notebook.empty) bc.children with
  | error e => simp [hl] at hp
  | ok st =>
    simp only [hl] at hp
    cases hf : parseFinish st with
    | error e => simp [hf] at hp
    | ok nb2 =>
      simp only [hf] at hp
      injection hp with hp
      injection hp with h1 h2
      subst h2
      rw [parseFinish_length st nb2 hf, parseLoop_sectionsStarted _ _ _ hl]
      have : isSectionMarker = (fun c => decide (c.type = NodeType.ElementNode) && decide (getClassAttr c = SectionClass)) := by
        funext c
        rfl
      simp [sectionsStarted, ParseState.init, Notebook.empty, this]

/-- C3 at a document with two section markers. -/
theorem C3_sections_count_witness :
    (∃ bc e nb1, findFirstNodeByClass docTwoSections "bodyContainer".toList = some bc ∧
      Parse Notebook.empty docTwoSections = .ok (e, nb1) ∧
      nb1.Sections.length = 2 ∧
      (bc.children.filter
        (fun c => c.type = NodeType.ElementNode && getClassAttr c = SectionClass)).length = 2) :=
  ⟨_, _, _, rfl, rfl, 
    (C3_sections_count docTwoSections _ _ _ rfl rfl).trans (by decide), by decide⟩

/-! ### The traversal loop -/

theorem parseLoop_append (a b : List Node) (st st1 : ParseState)
    (h : parseLoop st a = .ok st1) : parseLoop st (a ++ b) = parseLoop st1 b := by
  induction a generalizing st with
  | nil =>
    simp only [parseLoop] at h
    injection h with h
    subst h
    rfl
  | cons c cs ih =>
    simp only [parseLoop] at h
    cases hc : parseChild st c with
    | error e => simp [hc] at h
    | ok st2 =>
      simp only [hc] at h
      simp only [List.cons_append, parseLoop, hc]
      exact ih st2 h

theorem parseLoop_filter_element (cs : List Node) (st : ParseState) :
    parseLoop st cs = parseLoop st (cs.filter (fun c => c.type = NodeType.ElementNode)) := by
  induction cs generalizing st with
  | nil => rfl
  | cons c cs ih =>
    by_cases hE : c.type = NodeType.ElementNode
    · simp only [List.filter_cons, hE, decide_True, if_true, parseLoop]
      cases parseChild st c with
      | error e => rfl
      | ok st2 => exact ih st2
    · simp only [List.filter_cons, hE, decide_False, parseLoop,
        parseChild_of_not_element st c hE]
      simpa using ih st

theorem isMarker_iff (cls : GoString) (c : Node) :
    isMarker cls c = true ↔
      c.type = NodeType.ElementNode ∧ getClassAttr c = cls ∧
        firstChildData c = .ok (firstChildText c) := by
  unfold isMarker firstChildData firstChildText
  cases c.children <;> simp

theorem isHeader_iff (word : GoString) (c : Node) :
    isHeader word c = true ↔
      c.type = NodeType.ElementNode ∧ getClassAttr c = HighlightClass ∧
        firstChildData c = .ok (firstChildText c) ∧
        HasPrefix (TrimLeftFunc (firstChildText c) IsSpace) word = true := by
  simp [isHeader, isMarker_iff, and_assoc]



theorem parseHighlightChild_text_note (h : Highlight) (c : Node) :
    (parseHighlightChild h c).Text = h.Text ∧ (parseHighlightChild h c).Note = h.Note := by
  unfold parseHighlightChild
  repeat' split
  all_goals (first | (simp; done) | (dsimp only; split_ifs <;> simp))

theorem foldl_parseHighlightChild_text_note (cs : List Node) (h : Highlight) :
    (cs.foldl parseHighlightChild h).Text = h.Text ∧
      (cs.foldl parseHighlightChild h).Note = h.Note := by
  induction cs generalizing h with
  | nil => simp
  | cons c cs ih =>
    rw [List.foldl_cons]
    obtain ⟨h1, h2⟩ := ih (parseHighlightChild h c)
    obtain ⟨h3, h4⟩ := parseHighlightChild_text_note h c
    exact ⟨h1.trans h3, h2.trans h4⟩

theorem parseHighlightNode_text (n : Node) : (parseHighlightNode n).Text = [] :=
  (foldl_parseHighlightChild_text_note n.children Highlight.zero).1

theorem parseHighlightNode_note (n : Node) : (parseHighlightNode n).Note = [] :=
  (foldl_parseHighlightChild_text_note n.children Highlight.zero).2

theorem parseChild_highlight_header (nb : Notebook) (sec : Section) (ho : Option Highlight)
    (b : Bool) (c : Node) (hc : isHeader "Highlight".toList c = true) :
    parseChild { nb := nb, crtSection := some sec, crtHighlight := ho, insideNote := b } c =
      .ok { nb := nb, crtSection := some { sec with Highlights := pendingHighlights sec ho },
            crtHighlight := some (parseHighlightNode c), insideNote := b } := by
  obtain ⟨hE, hH, hd, hp⟩ := (isHeader_iff _ c).1 hc
  cases ho with
  | none =>
    rw [parseChild_highlight_none _ c _ hE hH hd hp rfl]
    simp [pendingHighlights]
  | some h =>
    rw [parseChild_highlight_some _ c _ h sec hE hH hd hp rfl rfl]
    simp [pendingHighlights]

theorem parseChild_note_header (st : ParseState) (c : Node)
    (hc : isHeader "Note".toList c = true) :
    parseChild st c = .ok { st with insideNote := true } := by
  obtain ⟨hE, hH, hd, hp⟩ := (isHeader_iff _ c).1 hc
  exact parseChild_note st c _ hE hH hd hp

theorem parseChild_text_body (nb : Notebook) (so : Option Section) (h : Highlight)
    (b : Bool) (c : Node) (hc : isMarker NoteTextClass c = true) :
    parseChild { nb := nb, crtSection := so, crtHighlight := some h, insideNote := b } c =
      .ok { nb := nb, crtSection := so,
            crtHighlight :=
              some (if b then { h with Note := TrimSpace (firstChildText c) }
                    else { h with Text := TrimSpace (firstChildText c) }),
            insideNote := false } := by
  obtain ⟨hE, hT, hd⟩ := (isMarker_iff _ c).1 hc
  rw [parseChild_noteText_some _ c _ h hE hT (parseTextNode_of_class c _ hT hd) rfl]
  cases b <;> simp

theorem parseLoop_item (it : Item) (nb : Notebook) (sec : Section) (ho : Option Highlight)
    (hwf : it.wellFormed = true) :
    parseLoop { nb := nb, crtSection := some sec, crtHighlight := ho, insideNote := false }
        it.nodes =
      .ok { nb := nb, crtSection := some { sec with Highlights := pendingHighlights sec ho },
            crtHighlight := some it.highlight, insideNote := false } := by
  obtain ⟨hdr, body, note⟩ := it
  simp only [Item.wellFormed, Bool.and_eq_true] at hwf
  obtain ⟨⟨h1, h2⟩, h3⟩ := hwf
  cases note with
  | none =>
    simp only [Item.nodes, parseLoop, parseChild_highlight_header nb sec ho false hdr h1,
      parseChild_text_body _ _ _ _ body h2]
    simp [Item.highlight, Item.noteText, parseHighlightNode_note]
  | some p =>
    obtain ⟨nh, nt⟩ := p
    simp only [Bool.and_eq_true] at h3
    simp only [Item.nodes, parseLoop, parseChild_highlight_header nb sec ho false hdr h1,
      parseChild_text_body _ _ _ _ body h2, parseChild_note_header _ nh h3.1,
      parseChild_text_body _ _ _ _ nt h3.2]
    simp [Item.highlight, Item.noteText]

/-- The items of a group, from a state whose current section is `sec`: the section under
construction gains the previous current highlight and all items but the last, which
becomes the current highlight. -/
theorem parseLoop_items (its : List Item) (nb : Notebook) (sec : Section)
    (ho : Option Highlight) (hwf : ∀ it ∈ its, it.wellFormed = true) :
    ∃ sec1 ho1,
      parseLoop { nb := nb, crtSection := some sec, crtHighlight := ho, insideNote := false }
          (its.flatMap Item.nodes) =
        .ok { nb := nb, crtSection := some sec1, crtHighlight := ho1, insideNote := false } ∧
      sec1.Title = sec.Title ∧
      pendingHighlights sec1 ho1 =
        pendingHighlights sec ho ++ its.map (fun it => some it.highlight) ∧
      (ho.isSome = true ∨ its ≠ [] → ho1.isSome = true) := by
  induction its generalizing sec ho with
  | nil => exact ⟨sec, ho, rfl, rfl, by simp, by simp⟩
  | cons it its ih =>
    have h1 := parseLoop_item it nb sec ho (hwf it (List.mem_cons_self _ _))
    obtain ⟨sec1, ho1, h2, h3, h4, h5⟩ :=
      ih { sec with Highlights := pendingHighlights sec ho } (some it.highlight)
        (fun x hx => hwf x (List.mem_cons_of_mem _ hx))
    refine ⟨sec1, ho1, ?_, h3, ?_, ?_⟩
    · rw [List.flatMap_cons, parseLoop_append _ _ _ _ h1]
      exact h2
    · rw [h4]
      simp [pendingHighlights]
    · intro _
      exact h5 (Or.inl rfl)


theorem parseChild_section_settled (st : ParseState) (c : Node) (hs : st.settled)
    (hc : isMarker SectionClass c = true) :
    ∃ nb1, parseChild st c =
        .ok { nb := nb1,
              crtSection := some { Title := TrimSpace (firstChildText c), Highlights := [] },
              crtHighlight := none, insideNote := false } ∧
      nb1.Sections = sectionsView st := by
  obtain ⟨hE, hS, hd⟩ := (isMarker_iff _ c).1 hc
  obtain ⟨nb, so, ho, b⟩ := st
  obtain ⟨h1, h2⟩ := hs
  simp only at h1 h2
  subst h1
  rw [parseChild_section _ c _ hE hS hd]
  cases so with
  | none =>
    cases ho with
    | none => exact ⟨nb, rfl, by simp [sectionsView]⟩
    | some h => simp at h2
  | some sec => exact ⟨flushSection nb sec ho, rfl, by simp [sectionsView, flushSection]⟩

theorem parseLoop_group (g : Group) (st : ParseState) (hs : st.settled)
    (hwf : g.wellFormed = true) :
    ∃ st1, parseLoop st g.nodes = .ok st1 ∧ st1.settled ∧ st1.crtSection.isSome = true ∧
      sectionsView st1 = sectionsView st ++ [some g.section] := by
  obtain ⟨marker, items⟩ := g
  simp only [Group.wellFormed, Bool.and_eq_true, List.all_eq_true] at hwf
  obtain ⟨⟨h1, h2⟩, h3⟩ := hwf
  obtain ⟨nb1, h4, h5⟩ := parseChild_section_settled st marker hs h1
  obtain ⟨sec1, ho1, h6, h7, h8, h9⟩ :=
    parseLoop_items items nb1 { Title := TrimSpace (firstChildText marker), Highlights := [] }
      none h3
  have hne : items ≠ [] := by
    intro h
    simp [h] at h2
  have h10 := h9 (Or.inr hne)
  obtain ⟨h11, rfl⟩ := Option.isSome_iff_exists.1 h10
  refine ⟨{ nb := nb1, crtSection := some sec1, crtHighlight := some h11,
            insideNote := false }, ?_, ?_, ?_, ?_⟩
  · simp only [Group.nodes, parseLoop, h4]
    exact h6
  · exact ⟨rfl, rfl⟩
  · rfl
  · simp only [sectionsView, h5, Group.section]
    simp only [pendingHighlights, Option.toList, List.map_cons, List.map_nil, List.nil_append,
      List.append_nil] at h8
    simp at h7
    simp [h8, h7]

theorem parseLoop_groups (gs : List Group) (st : ParseState) (hs : st.settled)
    (hwf : ∀ g ∈ gs, g.wellFormed = true) :
    ∃ st1, parseLoop st (gs.flatMap Group.nodes) = .ok st1 ∧ st1.settled ∧
      (gs ≠ [] → st1.crtSection.isSome = true) ∧
      sectionsView st1 = sectionsView st ++ gs.map (fun g => some g.section) := by
  induction gs generalizing st with
  | nil => exact ⟨st, rfl, hs, by simp, by simp⟩
  | cons g gs ih =>
    obtain ⟨st1, h1, h2, h3, h4⟩ := parseLoop_group g st hs (hwf g (List.mem_cons_self _ _))
    obtain ⟨st2, h5, h6, h7, h8⟩ := ih st1 h2 (fun x hx => hwf x (List.mem_cons_of_mem _ hx))
    refine ⟨st2, ?_, h6, ?_, ?_⟩
    · rw [List.flatMap_cons, parseLoop_append _ _ _ _ h1]
      exact h5
    · intro _
      cases gs with
      | nil =>
        simp only [List.flatMap_nil, parseLoop] at h5
        injection h5 with h5
        rw [← h5]
        exact h3
      | cons x xs => exact h7 (List.cons_ne_nil _ _)
    · rw [h8, h4]
      simp

/-- Title and author markers change the notebook's `Title` and `Author` only. -/
theorem parseLoop_preamble (pre : List Node) (st : ParseState)
    (hpre : ∀ c ∈ pre, (isMarker TitleClass c || isMarker AuthorClass c) = true) :
    ∃ nb1, parseLoop st pre = .ok { st with nb := nb1 } ∧ nb1.Sections = st.nb.Sections := by
  induction pre generalizing st with
  | nil => exact ⟨st.nb, rfl, rfl⟩
  | cons c cs ih =>
    have hc := hpre c (List.mem_cons_self _ _)
    rw [Bool.or_eq_true] at hc
    have step : ∃ nb1, parseChild st c = .ok { st with nb := nb1 } ∧
        nb1.Sections = st.nb.Sections := by
      rcases hc with hc | hc
      · obtain ⟨hE, hS, hd⟩ := (isMarker_iff _ c).1 hc
        exact ⟨_, parseChild_title st c _ hE hS hd, rfl⟩
      · obtain ⟨hE, hS, hd⟩ := (isMarker_iff _ c).1 hc
        exact ⟨_, parseChild_author st c _ hE hS hd, rfl⟩
    obtain ⟨nb1, h1, h2⟩ := step
    obtain ⟨nb2, h3, h4⟩ := ih { st with nb := nb1 }
      (fun x hx => hpre x (List.mem_cons_of_mem _ hx))
    refine ⟨nb2, ?_, h4.trans h2⟩
    simp only [parseLoop, h1]
    exact h3

theorem parseFinish_of_section (st : ParseState) (h : st.crtSection.isSome = true) :
    ∃ nb1, parseFinish st = .ok nb1 ∧ nb1.Sections = sectionsView st := by
  obtain ⟨sec, hsec⟩ := Option.isSome_iff_exists.1 h
  exact ⟨flushSection st.nb sec st.crtHighlight, by simp [parseFinish, hsec],
    by simp [sectionsView, hsec, flushSection]⟩

/-- C1. A document whose container has, as its element children, title and author
markers followed by one or more groups (a section marker, then one or more items: a
`Highlight` header, a text body and optionally a `Note` header with its text body), every
marker having a first child: `Parse` on the empty notebook returns a nil error, and the
sections are the groups in document order, each with the trimmed marker text as title and
its items as highlights in document order, an item's highlight having the colour, page
and location `parseHighlightNode` gives for the header, the trimmed body as `Text` and
the trimmed note body (or the empty string) as `Note`. -/
theorem C1_parse_wellformed_document (doc bc : Node) (pre : List Node) (groups : List Group)
    (hbc : findFirstNodeByClass doc "bodyContainer".toList = some bc)
    (hch : bc.children.filter (fun c => c.type = NodeType.ElementNode) =
      pre ++ groups.flatMap Group.nodes)
    (hpre : ∀ c ∈ pre, (isMarker TitleClass c || isMarker AuthorClass c) = true)
    (hne : groups ≠ [])
    (hwf : ∀ g ∈ groups, g.wellFormed = true) :
    ∃ nb1, Parse Notebook.empty doc = .ok (none, nb1) ∧
      nb1.Sections = groups.map (fun g => some
        { Title := TrimSpace (firstChildText g.marker)
          Highlights := g.items.map (fun it => some
            { Color := (parseHighlightNode it.header).Color
              Page := (parseHighlightNode it.header).Page
              Location := (parseHighlightNode it.header).Location
              Text := TrimSpace (firstChildText it.body)
              Note := it.noteText }) }) := by
  obtain ⟨nb0, h1, h2⟩ := parseLoop_preamble pre (ParseState.init Notebook.empty) hpre
  have hs : ParseState.settled { ParseState.init Notebook.empty with nb := nb0 } := ⟨rfl, rfl⟩
  obtain ⟨st1, h3, _, h5, h6⟩ := parseLoop_groups groups _ hs hwf
  obtain ⟨nb1, h7, h8⟩ := parseFinish_of_section st1 (h5 hne)
  refine ⟨nb1, ?_, ?_⟩
  · have hl : parseLoop (ParseState.init Notebook.empty) bc.children = .ok st1 := by
      rw [parseLoop_filter_element, hch, parseLoop_append _ _ _ _ h1]
      exact h3
    simp only [Parse, hbc, hl, h7]
  · rw [h8, h6]
    simp only [sectionsView, ParseState.init, Notebook.empty] at h2 ⊢
    simp [h2]
    intro g _
    rfl

/-- C1 at the end-to-end scenario: title `My Book`, author `J. Doe`, one section `Ch 1`
with two highlights, the first with a note. -/
theorem C1_parse_wellformed_document_witness :
    Parse Notebook.empty scenarioDoc = .ok (none,
      { Title := "My Book".toList, Author := "J. Doe".toList,
        Sections := [some
          { Title := "Ch 1".toList,
            Highlights :=
              [ some { Color := "yellow".toList, Page := 115, Location := 954,
                       Text := "some text".toList, Note := "my note".toList },
                some { Color := "blue".toList, Page := 0, Location := 2364,
                       Text := "second".toList, Note := [] } ] }] }) ∧
    ∃ nb1, Parse Notebook.empty scenarioDoc = .ok (none, nb1) ∧
      nb1.Sections = [scenarioGroup].map (fun g => some
        { Title := TrimSpace (firstChildText g.marker)
          Highlights := g.items.map (fun it => some
            { Color := (parseHighlightNode it.header).Color
              Page := (parseHighlightNode it.header).Page
              Location := (parseHighlightNode it.header).Location
              Text := TrimSpace (firstChildText it.body)
              Note := it.noteText }) }) :=
  ⟨by rfl,
    C1_parse_wellformed_document scenarioDoc scenarioContainer scenarioPreamble [scenarioGroup]
      rfl rfl (by decide) (List.cons_ne_nil _ _) (by decide)⟩

/-- C4 (failing input). With a section marker `A` directly followed by the next section
marker, `Parse` completes and section `A` has a `Highlights` list of length 1, holding one
nil entry, although no highlight header lies between the two markers. -/
theorem C4_empty_section_has_nil_entry :
    Parse Notebook.empty docEmptySection = .ok (none,
      { Title := [], Author := [],
        Sections :=
          [ some { Title := "A".toList, Highlights := [none] },
            some { Title := "B".toList,
                   Highlights := [some { Color := "pink".toList, Page := 0, Location := 7,
                                         Text := "x".toList, Note := [] }] } ] }) := by
  rfl

theorem parseLoop_skip_non_elements (ws cs : List Node) (st : ParseState)
    (hws : ∀ w ∈ ws, w.type ≠ NodeType.ElementNode) :
    parseLoop st (ws ++ cs) = parseLoop st cs := by
  induction ws with
  | nil => rfl
  | cons w ws ih =>
    simp only [List.cons_append, parseLoop,
      parseChild_of_not_element st w (hws w (List.mem_cons_self _ _))]
    exact ih (fun x hx => hws x (List.mem_cons_of_mem _ hx))

/-- C5. From any traversal state with a current highlight `h`, a `noteHeading` child whose
text starts with `Note`, followed (white-space and other non-element nodes apart) by a
`noteText` child, leaves the notebook and the current section as they are, and the current
highlight is `h` with `Note` set to the trimmed text of the `noteText` child; `Color`,
`Page`, `Location` and `Text` are those of `h`. -/
theorem C5_note_attaches_to_current_highlight (st : ParseState) (h : Highlight)
    (noteHeader noteBody : Node) (ws : List Node)
    (hh : st.crtHighlight = some h)
    (h1 : isHeader "Note".toList noteHeader = true)
    (hws : ∀ w ∈ ws, w.type ≠ NodeType.ElementNode)
    (h2 : isMarker NoteTextClass noteBody = true) :
    parseLoop st (noteHeader :: (ws ++ [noteBody])) = .ok
      { nb := st.nb
        crtSection := st.crtSection
        crtHighlight := some
          { Color := h.Color, Page := h.Page, Location := h.Location, Text := h.Text,
            Note := TrimSpace (firstChildText noteBody) }
        insideNote := false } := by
  obtain ⟨nb, so, ho, b⟩ := st
  simp only at hh
  subst hh
  simp only [parseLoop, parseChild_note_header _ noteHeader h1]
  rw [parseLoop_skip_non_elements ws _ _ hws]
  simp only [parseLoop, parseChild_text_body _ _ _ _ noteBody h2]
  rfl

/-- C5 at a state with a current highlight, the two children separated by a text node. -/
theorem C5_note_attaches_to_current_highlight_witness :
    parseLoop stateWithHighlight
        [ elemNode "div" "noteHeading" [textNode "\n Note - Ch 1 > Location 954"],
          textNode "\n",
          elemNode "div" "noteText" [textNode " my note \n"] ] = .ok
      { nb := stateWithHighlight.nb
        crtSection := stateWithHighlight.crtSection
        crtHighlight := some
          { Color := "yellow".toList, Page := 115, Location := 954,
            Text := "some text".toList, Note := "my note".toList }
        insideNote := false } :=
  C5_note_attaches_to_current_highlight stateWithHighlight _
    (elemNode "div" "noteHeading" [textNode "\n Note - Ch 1 > Location 954"])
    (elemNode "div" "noteText" [textNode " my note \n"]) [textNode "\n"]
    rfl (by decide) (by decide) (by decide)

/-! ### Trimming -/

theorem trimRightFunc_eq_rdropWhile (s : GoString) (f : Char → Bool) :
    TrimRightFunc s f = s.rdropWhile f := rfl

theorem trimFunc_decomp (s : GoString) (f : Char → Bool) :
    ∃ l r, s = l ++ TrimFunc s f ++ r ∧ (∀ c ∈ l, f c = true) ∧ (∀ c ∈ r, f c = true) := by
  refine ⟨s.takeWhile f, ((s.dropWhile f).reverse.takeWhile f).reverse, ?_, ?_, ?_⟩
  · have h1 := List.takeWhile_append_dropWhile f (s.dropWhile f).reverse
    have h2 : ((s.dropWhile f).reverse.dropWhile f).reverse ++
        ((s.dropWhile f).reverse.takeWhile f).reverse = s.dropWhile f := by
      rw [← List.reverse_append, h1, List.reverse_reverse]
    simp only [TrimFunc, TrimRightFunc, TrimLeftFunc, List.append_assoc, h2,
      List.takeWhile_append_dropWhile]
  · intro c hc
    exact List.mem_takeWhile_imp hc
  · intro c hc
    exact List.mem_takeWhile_imp (List.mem_reverse.1 hc)

theorem trimFunc_getLast (s : GoString) (f : Char → Bool) (c : Char)
    (h : (TrimFunc s f).getLast? = some c) : f c = false := by
  simp only [TrimFunc, TrimRightFunc, List.getLast?_reverse] at h
  have h1 := List.head?_dropWhile_not f (TrimLeftFunc s f).reverse
  rw [h] at h1
  exact h1

theorem trimFunc_head (s : GoString) (f : Char → Bool) (c : Char)
    (h : (TrimFunc s f).head? = some c) : f c = false := by
  have hp : TrimFunc s f <+: s.dropWhile f := List.rdropWhile_prefix f (s.dropWhile f)
  obtain ⟨r, hr⟩ := hp
  have h1 := List.head?_dropWhile_not f s
  rw [← hr] at h1
  cases ht : TrimFunc s f with
  | nil => simp [ht] at h
  | cons x xs =>
    rw [ht] at h h1
    simp only [List.head?_cons, Option.some.injEq] at h
    subst h
    simpa using h1

/-- C8. A node whose class label is not `noteText` gives the empty string, whatever its
children. A `noteText` node with first child text `t` gives `TrimSpace t`, which is `t`
without a prefix `l` and a suffix `r` that consist of white space only, and neither
starts nor ends with white space. -/
theorem C8_parseTextNode (n : Node) :
    (getClassAttr n ≠ NoteTextClass → parseTextNode n = .ok []) ∧
    (∀ fc rest, getClassAttr n = NoteTextClass → n.children = fc :: rest →
      ∃ res l r, parseTextNode n = .ok res ∧ fc.data = l ++ res ++ r ∧
        (∀ c ∈ l, IsSpace c = true) ∧ (∀ c ∈ r, IsSpace c = true) ∧
        (∀ c, res.head? = some c → IsSpace c = false) ∧
        (∀ c, res.getLast? = some c → IsSpace c = false)) := by
  constructor
  · intro h
    simp [parseTextNode, h]
  · intro fc rest hc hch
    obtain ⟨l, r, h1, h2, h3⟩ := trimFunc_decomp fc.data IsSpace
    refine ⟨TrimSpace fc.data, l, r, ?_, h1, h2, h3, ?_, ?_⟩
    · simp [parseTextNode, hc, firstChildData, hch]
    · exact fun c => trimFunc_head fc.data IsSpace c
    · exact fun c => trimFunc_getLast fc.data IsSpace c

/-- C8 at a `noteText` node with white space around its text and at two nodes of another
class, one of them without children. -/
theorem C8_parseTextNode_witness :
    parseTextNode (elemNode "div" "noteText" [textNode "\n\t Quick experiments.  \n"]) =
      .ok "Quick experiments.".toList ∧
    parseTextNode (elemNode "div" "noteHeading" [textNode " Note "]) = .ok [] ∧
    parseTextNode (elemNode "div" "sectionHeading" []) = .ok [] ∧
    ∃ res l r,
      parseTextNode (elemNode "div" "noteText" [textNode "\n\t Quick experiments.  \n"]) =
        .ok res ∧
      "\n\t Quick experiments.  \n".toList = l ++ res ++ r ∧
      (∀ c ∈ l, IsSpace c = true) ∧ (∀ c ∈ r, IsSpace c = true) ∧
      (∀ c, res.head? = some c → IsSpace c = false) ∧
      (∀ c, res.getLast? = some c → IsSpace c = false) :=
  ⟨by rfl,
    (C8_parseTextNode (elemNode "div" "noteHeading" [textNode " Note "])).1 (by decide),
    (C8_parseTextNode (elemNode "div" "sectionHeading" [])).1 (by decide),
    (C8_parseTextNode (elemNode "div" "noteText" [textNode "\n\t Quick experiments.  \n"])).2
      _ _ rfl rfl⟩

/-- C9 (counterexample). A `noteText` element without any child makes `parseTextNode`
panic on `n.FirstChild.Data`; it does not return the empty string. -/
theorem C9_childless_noteText_panics :
    parseTextNode (elemNode "div" "noteText" []) = .error Panic.nilDereference ∧
    parseTextNode (elemNode "div" "noteText" []) ≠ .ok [] := by
  have h : parseTextNode (elemNode "div" "noteText" []) = .error Panic.nilDereference := rfl
  refine ⟨h, ?_⟩
  rw [h]
  intro h2
  cases h2

/-- C9 (amended). For a node classified `noteText` that has no child, `parseTextNode`
does not return: reading `n.FirstChild.Data` is a nil dereference. -/
theorem C9_parseTextNode_childless (n : Node)
    (hc : getClassAttr n = NoteTextClass) (hch : n.children = []) :
    parseTextNode n = .error Panic.nilDereference := by
  simp [parseTextNode, hc, firstChildData, hch]

/-- C9 (amended) at a childless `<p class="noteText">`. -/
theorem C9_parseTextNode_childless_witness :
    parseTextNode (elemNode "p" "noteText" []) = .error Panic.nilDereference :=
  C9_parseTextNode_childless (elemNode "p" "noteText" []) rfl rfl

/-! ### The patterns and `Atoi` -/

theorem hasPrefix_iff (s p : GoString) : HasPrefix s p = true ↔ p <+: s := by
  induction s generalizing p with
  | nil =>
    cases p with
    | nil => simp [HasPrefix]
    | cons x xs => simp [HasPrefix]
  | cons c s ih =>
    cases p with
    | nil => simp [HasPrefix]
    | cons x xs =>
      simp only [HasPrefix, Bool.and_eq_true, beq_iff_eq, ih, List.cons_prefix_cons]
      exact and_congr_left (fun _ => eq_comm)

/-- The pattern `lit(\d+)` matches at offset `i` of `s` exactly when `s` is some `pre` of
length `i`, then `lit`, then a digit. -/
theorem occursAt_iff (lit s : GoString) (i : Nat) :
    occursAt lit s i = true ↔
      ∃ pre x rest, s = pre ++ lit ++ x :: rest ∧ pre.length = i ∧ isDigit x = true := by
  unfold occursAt
  rw [Bool.and_eq_true, hasPrefix_iff]
  constructor
  · rintro ⟨⟨t, ht⟩, h2⟩
    rw [← ht, List.drop_left] at h2
    cases t with
    | nil => simp at h2
    | cons x rest =>
      simp only [List.head?_cons, Option.any_some] at h2
      have hle : i ≤ s.length := by
        by_contra hgt
        have : s.drop i = [] := List.drop_of_length_le (by omega)
        rw [this] at ht
        simp at ht
      refine ⟨s.take i, x, rest, ?_, by simp [hle], h2⟩
      rw [List.append_assoc, ht, List.take_append_drop]
  · rintro ⟨pre, x, rest, rfl, rfl, hx⟩
    simp [List.append_assoc, hx]

theorem occurrences_nil (lit : GoString) : occurrences lit [] = [] := rfl

theorem occursAt_cons_succ (lit : GoString) (c : Char) (s : GoString) (i : Nat) :
    occursAt lit (c :: s) (i + 1) = occursAt lit s i := rfl

theorem digitRunAt_cons_succ (lit : GoString) (c : Char) (s : GoString) (i : Nat) :
    digitRunAt lit (c :: s) (i + 1) = digitRunAt lit s i := rfl

theorem occurrences_cons (lit : GoString) (c : Char) (s : GoString) :
    occurrences lit (c :: s) =
      (if occursAt lit (c :: s) 0 then [0] else []) ++ (occurrences lit s).map (· + 1) := by
  unfold occurrences
  rw [List.length_cons, List.range_succ_eq_map, List.filter_cons, List.filter_map]
  have : (occursAt lit (c :: s) ∘ Nat.succ) = occursAt lit s := by
    funext i
    rfl
  rw [this]
  split <;> simp

/-- The pattern captures the digit run of its leftmost occurrence. -/
theorem findLitDigits_eq_head (lit s : GoString) :
    findLitDigits lit s = ((occurrences lit s).map (digitRunAt lit s)).head? := by
  induction s with
  | nil => rfl
  | cons c s ih =>
    rw [findLitDigits, occurrences_cons]
    by_cases h : occursAt lit (c :: s) 0 = true
    · have h2 : (HasPrefix (c :: s) lit &&
          ((c :: s).drop lit.length).head?.any isDigit) = true := h
      simp only [h2, h, if_true]
      rfl
    · have h2 : (HasPrefix (c :: s) lit &&
          ((c :: s).drop lit.length).head?.any isDigit) = false := by
        simpa [occursAt] using h
      simp only [h2, h, ih]
      simp [List.map_map, Function.comp_def, digitRunAt_cons_succ]

theorem digitRunAt_of_occursAt (lit s : GoString) (i : Nat) (h : occursAt lit s i = true) :
    digitRunAt lit s i ≠ [] ∧ ∀ c ∈ digitRunAt lit s i, isDigit c = true := by
  constructor
  · unfold occursAt at h
    unfold digitRunAt
    rw [Bool.and_eq_true] at h
    cases hd : (s.drop i).drop lit.length with
    | nil => simp [hd] at h
    | cons x xs =>
      simp only [hd, List.head?_cons, Option.any_some] at h
      simp [List.takeWhile_cons, h.2]
  · intro c hc
    exact List.mem_takeWhile_imp hc

theorem mem_occurrences_runs (lit s d : GoString)
    (h : d ∈ (occurrences lit s).map (digitRunAt lit s)) :
    d ≠ [] ∧ ∀ c ∈ d, isDigit c = true := by
  obtain ⟨i, hi, rfl⟩ := List.mem_map.1 h
  exact digitRunAt_of_occursAt lit s i (List.mem_filter.1 hi).2

theorem findLitDigits_digits (lit s d : GoString) (h : findLitDigits lit s = some d) :
    d ≠ [] ∧ ∀ c ∈ d, isDigit c = true := by
  rw [findLitDigits_eq_head] at h
  exact mem_occurrences_runs lit s d (List.mem_of_mem_head? h)

/-- On a non-empty string of digits `Atoi` fails only by range. -/
theorem atoi_digits (d : GoString) (hne : d ≠ []) (hd : ∀ c ∈ d, isDigit c = true) :
    Atoi d = if (decimalValue d : Int) > maxInt then (maxInt, some NumError.ErrRange)
      else ((decimalValue d : Int), none) := by
  cases d with
  | nil => exact absurd rfl hne
  | cons c t =>
    have hc := hd c (List.mem_cons_self _ _)
    have hall : (c :: t).all isDigit = true := List.all_eq_true.2 hd
    have hp : c ≠ '+' := by
      rintro rfl
      simp [isDigit] at hc
    have hm : c ≠ '-' := by
      rintro rfl
      simp [isDigit] at hc
    unfold Atoi
    split
    · rename_i heq
      split at heq
      · rename_i h1
        injection h1 with h1 _
        exact absurd h1 hp
      · rename_i h1
        injection h1 with h1 _
        exact absurd h1 hm
      · injection heq with h1 h2
        subst h1 h2
        simp [hall]

/-! ### The header parser -/

theorem parseHighlightChild_location (h : Highlight) (c : Node) :
    (parseHighlightChild h c).Location =
      if c.type = NodeType.TextNode then
        ((reExtractLocation c.data).map (fun m => (Atoi m).1)).getD h.Location
      else h.Location := by
  unfold parseHighlightChild
  cases hc : c.type <;> simp only [reduceCtorEq, if_false, if_true]
  · cases reExtractLocation c.data <;> cases reExtractPage c.data <;> rfl
  · split_ifs <;> rfl

theorem parseHighlightChild_page (h : Highlight) (c : Node) :
    (parseHighlightChild h c).Page =
      if c.type = NodeType.TextNode then
        ((reExtractPage c.data).map (fun m => (Atoi m).1)).getD h.Page
      else h.Page := by
  unfold parseHighlightChild
  cases hc : c.type <;> simp only [reduceCtorEq, if_false, if_true]
  · cases reExtractLocation c.data <;> cases reExtractPage c.data <;> rfl
  · split_ifs <;> rfl

/-- A field that each text child overwrites with the value of its match ends up with the
value of the last text child in which the pattern matches. -/
theorem foldl_last_match (proj : Highlight → Int) (re : GoString → Option GoString)
    (hstep : ∀ h c, proj (parseHighlightChild h c) =
      if c.type = NodeType.TextNode then
        ((re c.data).map (fun m => (Atoi m).1)).getD (proj h)
      else proj h)
    (cs : List Node) (h : Highlight) :
    proj (cs.foldl parseHighlightChild h) =
      ((textMatches re cs).getLast?.map (fun m => (Atoi m).1)).getD (proj h) := by
  induction cs generalizing h with
  | nil => rfl
  | cons c cs ih =>
    rw [List.foldl_cons, ih, hstep]
    unfold textMatches
    by_cases hc : c.type = NodeType.TextNode
    · simp only [hc, if_true, List.filter_cons, decide_True, List.filterMap_cons]
      cases hre : re c.data with
      | none => simp
      | some m =>
        simp only [Option.map_some', Option.getD_some]
        cases hl : (List.filterMap (fun c => re c.data)
            (List.filter (fun c => decide (c.type = NodeType.TextNode)) cs)) with
        | nil => simp
        | cons x xs =>
          obtain ⟨z, hz⟩ : ∃ z, (x :: xs).getLast? = some z :=
            ⟨_, List.getLast?_eq_getLast _ (List.cons_ne_nil _ _)⟩
          simp [hz]
    · simp [hc, List.filter_cons]

theorem parseHighlightNode_location (n : Node) :
    (parseHighlightNode n).Location =
      ((textMatches reExtractLocation n.children).getLast?.map (fun m => (Atoi m).1)).getD 0 :=
  foldl_last_match (fun h => h.Location) reExtractLocation parseHighlightChild_location
    n.children Highlight.zero

theorem parseHighlightNode_page (n : Node) :
    (parseHighlightNode n).Page =
      ((textMatches reExtractPage n.children).getLast?.map (fun m => (Atoi m).1)).getD 0 :=
  foldl_last_match (fun h => h.Page) reExtractPage parseHighlightChild_page
    n.children Highlight.zero

theorem filterMap_head_of_flatMap_nil {α β : Type} (f : α → List β) (l : List α)
    (h : l.flatMap f = []) : l.filterMap (fun x => (f x).head?) = [] := by
  induction l with
  | nil => rfl
  | cons x xs ih =>
    rw [List.flatMap_cons, List.append_eq_nil] at h
    simp [List.filterMap_cons, h.1, ih h.2]

theorem filterMap_head_of_flatMap_singleton {α β : Type} (f : α → List β) (l : List α)
    (d : β) (h : l.flatMap f = [d]) : l.filterMap (fun x => (f x).head?) = [d] := by
  induction l with
  | nil => simp at h
  | cons x xs ih =>
    rw [List.flatMap_cons] at h
    cases hx : f x with
    | nil =>
      rw [hx, List.nil_append] at h
      simp [List.filterMap_cons, hx, ih h]
    | cons y ys =>
      rw [hx, List.cons_append] at h
      injection h with h1 h2
      rw [List.append_eq_nil] at h2
      simp [List.filterMap_cons, hx, h1, filterMap_head_of_flatMap_nil f xs h2.2]

theorem textMatches_eq (lit : GoString) (n : Node) :
    textMatches (findLitDigits lit) n.children =
      (textChildren n).filterMap
        (fun c => ((occurrences lit c.data).map (digitRunAt lit c.data)).head?) := by
  unfold textMatches textChildren
  congr 1
  funext c
  exact findLitDigits_eq_head lit c.data

theorem textMatches_of_runs_singleton (lit : GoString) (n : Node) (d : GoString)
    (h : digitRunsIn lit n = [d]) : textMatches (findLitDigits lit) n.children = [d] := by
  rw [textMatches_eq]
  exact filterMap_head_of_flatMap_singleton _ _ d h

theorem textMatches_of_runs_nil (lit : GoString) (n : Node)
    (h : digitRunsIn lit n = []) : textMatches (findLitDigits lit) n.children = [] := by
  rw [textMatches_eq]
  exact filterMap_head_of_flatMap_nil _ _ h

theorem mem_digitRunsIn (lit : GoString) (n : Node) (d : GoString)
    (h : d ∈ digitRunsIn lit n) : d ≠ [] ∧ ∀ c ∈ d, isDigit c = true := by
  obtain ⟨c, _, hc⟩ := List.mem_flatMap.1 h
  exact mem_occurrences_runs lit c.data d hc

theorem atoi_of_fits (d : GoString) (hne : d ≠ []) (hd : ∀ c ∈ d, isDigit c = true)
    (hfit : (decimalValue d : Int) ≤ maxInt) : Atoi d = ((decimalValue d : Int), none) := by
  rw [atoi_digits d hne hd, if_neg (not_lt.2 hfit)]

/-- C6. When the text children of a header hold, taken together, exactly one occurrence
of `Location ` followed by digits, with a value that fits in an `int`, `parseHighlightNode`
returns the decimal value of that digit run as `Location`. When they hold no occurrence
of `Page ` followed by digits it returns `Page = 0`, and when they hold exactly one, with
a value that fits in an `int`, it returns the decimal value of that digit run as `Page`. -/
theorem C6_page_location (n : Node) (d : GoString)
    (hloc : digitRunsIn "Location ".toList n = [d])
    (hfit : (decimalValue d : Int) ≤ maxInt) :
    (parseHighlightNode n).Location = decimalValue d ∧
    (digitRunsIn "Page ".toList n = [] → (parseHighlightNode n).Page = 0) ∧
    (∀ p, digitRunsIn "Page ".toList n = [p] → (decimalValue p : Int) ≤ maxInt →
      (parseHighlightNode n).Page = decimalValue p) := by
  have hd := mem_digitRunsIn "Location ".toList n d (by rw [hloc]; exact List.mem_singleton_self d)
  refine ⟨?_, ?_, ?_⟩
  · rw [parseHighlightNode_location]
    unfold reExtractLocation
    rw [textMatches_of_runs_singleton _ n d hloc]
    simp [atoi_of_fits d hd.1 hd.2 hfit]
  · intro h
    rw [parseHighlightNode_page]
    unfold reExtractPage
    rw [textMatches_of_runs_nil _ n h]
    rfl
  · intro p h hf
    have hp := mem_digitRunsIn "Page ".toList n p (by rw [h]; exact List.mem_singleton_self p)
    rw [parseHighlightNode_page]
    unfold reExtractPage
    rw [textMatches_of_runs_singleton _ n p h]
    simp [atoi_of_fits p hp.1 hp.2 hf]

/-- C6 at the two headers of the source's comment: `Page 115 · Location 954` and
`Location 2364` alone. -/
theorem C6_page_location_witness :
    ((parseHighlightNode headerPageLocation).Location = 954 ∧
      (parseHighlightNode headerPageLocation).Page = 115) ∧
    ((parseHighlightNode headerLocationOnly).Location = 2364 ∧
      (parseHighlightNode headerLocationOnly).Page = 0) :=
  ⟨⟨(C6_page_location headerPageLocation "954".toList (by decide) (by decide)).1,
     (C6_page_location headerPageLocation "954".toList (by decide) (by decide)).2.2
        "115".toList (by decide) (by decide)⟩,
   ⟨(C6_page_location headerLocationOnly "2364".toList (by decide) (by decide)).1,
     (C6_page_location headerLocationOnly "2364".toList (by decide) (by decide)).2.1
        (by decide)⟩⟩

/-- C10 (counterexample). In the text `Location 9223372036854775808` the pattern matches
and captures 19 digits, `Atoi` fails on them with `ErrRange`, and the stored `Location` is
the largest `int`, not the value of the digits. -/
theorem C10_atoi_fails_on_long_digit_run :
    reExtractLocation ") - Location 9223372036854775808".toList =
      some "9223372036854775808".toList ∧
    Atoi "9223372036854775808".toList = (9223372036854775807, some NumError.ErrRange) ∧
    (parseHighlightNode headerHugeLocation).Location = 9223372036854775807 ∧
    (parseHighlightNode headerHugeLocation).Location ≠
      (decimalValue "9223372036854775808".toList : Int) := by
  decide

/-- C10 (amended). On the digits a pattern captures in a text child, `Atoi` never fails
with a syntax error; when their decimal value is at most the largest `int` it does not
fail at all and the stored `Location` (`Page`) is that value; when it is larger `Atoi`
fails with a range error. -/
theorem C10_atoi_on_captured_digits (h : Highlight) (c : Node) (d : GoString)
    (hc : c.type = NodeType.TextNode) :
    (reExtractLocation c.data = some d ∨ reExtractPage c.data = some d →
      (Atoi d).2 ≠ some NumError.ErrSyntax ∧
      ((decimalValue d : Int) ≤ maxInt → Atoi d = ((decimalValue d : Int), none)) ∧
      (maxInt < (decimalValue d : Int) → (Atoi d).2 = some NumError.ErrRange)) ∧
    (reExtractLocation c.data = some d → (decimalValue d : Int) ≤ maxInt →
      (parseHighlightChild h c).Location = decimalValue d) ∧
    (reExtractPage c.data = some d → (decimalValue d : Int) ≤ maxInt →
      (parseHighlightChild h c).Page = decimalValue d) := by
  refine ⟨?_, ?_, ?_⟩
  · intro hm
    have hd : d ≠ [] ∧ ∀ x ∈ d, isDigit x = true := by
      rcases hm with hm | hm
      · exact findLitDigits_digits _ _ d hm
      · exact findLitDigits_digits _ _ d hm
    refine ⟨?_, atoi_of_fits d hd.1 hd.2, ?_⟩
    · rw [atoi_digits d hd.1 hd.2]
      split_ifs <;> simp
    · intro hlt
      rw [atoi_digits d hd.1 hd.2, if_pos hlt]
  · intro hm hfit
    have hd := findLitDigits_digits _ _ d hm
    rw [parseHighlightChild_location, if_pos hc, hm]
    simp [atoi_of_fits d hd.1 hd.2 hfit]
  · intro hm hfit
    have hd := findLitDigits_digits _ _ d hm
    rw [parseHighlightChild_page, if_pos hc, hm]
    simp [atoi_of_fits d hd.1 hd.2 hfit]

/-- C10 (amended) at a text with the largest `int` as location and `115` as page. -/
theorem C10_atoi_on_captured_digits_witness :
    Atoi "9223372036854775807".toList = (9223372036854775807, none) ∧
    (parseHighlightChild Highlight.zero
      (textNode ") - Page 115 · Location 9223372036854775807")).Location =
        9223372036854775807 ∧
    (parseHighlightChild Highlight.zero
      (textNode ") - Page 115 · Location 9223372036854775807")).Page = 115 :=
  ⟨((C10_atoi_on_captured_digits Highlight.zero
      (textNode ") - Page 115 · Location 9223372036854775807")
      "9223372036854775807".toList rfl).1 (Or.inl (by decide))).2.1 (by decide),
   (C10_atoi_on_captured_digits Highlight.zero
      (textNode ") - Page 115 · Location 9223372036854775807")
      "9223372036854775807".toList rfl).2.1 (by decide) (by decide),
   (C10_atoi_on_captured_digits Highlight.zero
      (textNode ") - Page 115 · Location 9223372036854775807")
      "115".toList rfl).2.2 (by decide) (by decide)⟩

/-! ### The colour -/

theorem indexRune_ge (s : GoString) (r : Char) : -1 ≤ IndexRune s r := by
  induction s with
  | nil => simp [IndexRune]
  | cons c s ih =>
    rw [IndexRune]
    dsimp only
    split_ifs <;> omega

theorem indexRune_of_not_mem (s : GoString) (r : Char) (h : r ∉ s) : IndexRune s r = -1 := by
  induction s with
  | nil => rfl
  | cons c s ih =>
    rw [List.mem_cons, not_or] at h
    unfold IndexRune
    rw [if_neg (fun hc => h.1 hc.symm)]
    simp [ih h.2]

theorem indexRune_of_split (pre post : GoString) (r : Char) (h : r ∉ pre) :
    IndexRune (pre ++ r :: post) r = pre.length := by
  induction pre with
  | nil => simp [IndexRune]
  | cons c s ih =>
    rw [List.mem_cons, not_or] at h
    rw [List.cons_append, IndexRune, if_neg (fun hc => h.1 hc.symm)]
    dsimp only
    rw [ih h.2, List.length_cons]
    have : (s.length : Int) ≠ -1 := by omega
    rw [if_neg this]
    push_cast
    rfl

theorem getClassAttrOf_of_no_class (as : List Attribute)
    (h : ∀ a ∈ as, a.Key ≠ "class".toList) : getClassAttrOf as = [] := by
  induction as with
  | nil => rfl
  | cons a as ih =>
    rw [getClassAttrOf, if_neg (h a (List.mem_cons_self _ _))]
    exact ih (fun x hx => h x (List.mem_cons_of_mem _ hx))

theorem parseHighlightChild_color (h : Highlight) (c : Node) :
    (parseHighlightChild h c).Color =
      if c.type = NodeType.ElementNode ∧ IndexRune (getClassAttr c) '_' ≠ -1 then
        sliceFrom (getClassAttr c) (IndexRune (getClassAttr c) '_' + 1)
      else h.Color := by
  unfold parseHighlightChild
  cases hc : c.type <;> simp only [reduceCtorEq, false_and, true_and, if_false]
  · cases reExtractLocation c.data <;> cases reExtractPage c.data <;> rfl
  · split_ifs <;> rfl

theorem foldl_color_no_element (cs : List Node) (h : Highlight)
    (hcs : cs.filter (fun c => c.type = NodeType.ElementNode) = []) :
    (cs.foldl parseHighlightChild h).Color = h.Color := by
  induction cs generalizing h with
  | nil => rfl
  | cons c cs ih =>
    by_cases hc : c.type = NodeType.ElementNode
    · simp [List.filter_cons, hc] at hcs
    · simp only [List.filter_cons, hc, decide_False] at hcs
      rw [List.foldl_cons, ih _ (by simpa using hcs), parseHighlightChild_color]
      simp [hc]

theorem foldl_color_one_element (cs : List Node) (h : Highlight) (e : Node)
    (hcs : cs.filter (fun c => c.type = NodeType.ElementNode) = [e]) :
    (cs.foldl parseHighlightChild h).Color =
      if IndexRune (getClassAttr e) '_' ≠ -1 then
        sliceFrom (getClassAttr e) (IndexRune (getClassAttr e) '_' + 1)
      else h.Color := by
  induction cs generalizing h with
  | nil => simp at hcs
  | cons c cs ih =>
    by_cases hc : c.type = NodeType.ElementNode
    · simp only [List.filter_cons, hc, decide_True, if_true] at hcs
      injection hcs with h1 h2
      subst h1
      rw [List.foldl_cons, foldl_color_no_element cs _ h2, parseHighlightChild_color]
      simp [hc]
    · simp only [List.filter_cons, hc, decide_False] at hcs
      rw [List.foldl_cons, ih _ (by simpa using hcs), parseHighlightChild_color]
      simp [hc]

/-- C7. For a header with exactly one element child `e`, of class label `c`: when
`c = pre ++ "_" ++ post` with no underscore in `pre`, the colour is `post`; when `c` has
no underscore, and in particular when `e` has no `class` attribute, the colour is the
empty string. -/
theorem C7_color (n e : Node)
    (he : n.children.filter (fun c => c.type = NodeType.ElementNode) = [e]) :
    (∀ pre post, getClassAttr e = pre ++ '_' :: post → '_' ∉ pre →
      (parseHighlightNode n).Color = post) ∧
    ('_' ∉ getClassAttr e → (parseHighlightNode n).Color = []) ∧
    ((∀ a ∈ e.attr, a.Key ≠ "class".toList) → (parseHighlightNode n).Color = []) := by
  have key := foldl_color_one_element n.children Highlight.zero e he
  have hno : '_' ∉ getClassAttr e → (parseHighlightNode n).Color = [] := by
    intro h
    unfold parseHighlightNode
    rw [key, indexRune_of_not_mem _ _ h]
    rfl
  refine ⟨?_, hno, ?_⟩
  · intro pre post hc hpre
    unfold parseHighlightNode
    rw [key, hc, indexRune_of_split pre post '_' hpre]
    have : (pre.length : Int) ≠ -1 := by omega
    simp only [ne_eq, this, not_false_eq_true, if_true, sliceFrom]
    have h2 : ((pre.length : Int) + 1).toNat = pre.length + 1 := by omega
    rw [h2]
    simp
  · intro h
    apply hno
    have : getClassAttr e = [] := getClassAttrOf_of_no_class e.attr h
    rw [this]
    exact List.not_mem_nil _

/-- C7 at the class labels `highlight_yellow`, `highlight_light_blue` and `yellow`, and at an
element without `class` attribute. -/
theorem C7_color_witness :
    (parseHighlightNode headerLocationOnly).Color = "yellow".toList ∧
    (parseHighlightNode headerLightBlue).Color = "light_blue".toList ∧
    (parseHighlightNode headerPlainClass).Color = [] ∧
    (parseHighlightNode headerNoClass).Color = [] :=
  ⟨(C7_color headerLocationOnly _ rfl).1 "highlight".toList "yellow".toList rfl (by decide),
   (C7_color headerLightBlue _ rfl).1 "highlight".toList "light_blue".toList rfl (by decide),
   (C7_color headerPlainClass _ rfl).2.1 (by decide),
   (C7_color headerNoClass _ rfl).2.2 (by decide)⟩

/-- C15. `findFirstNodeByClass` (a total function on node trees) returns `m` exactly when
`m` is an element node carrying an attribute with key `class` and value `c` and no node
before `m` in document order (pre-order, depth first) is one; it returns nil exactly when
no node of the tree is one. -/
theorem C15_findFirstNodeByClass (n : Node) (c : GoString) :
    (∀ m, findFirstNodeByClass n c = some m ↔
      (m.type = NodeType.ElementNode ∧ ∃ a ∈ m.attr, a.Key = "class".toList ∧ a.Val = c) ∧
      ∃ before after, preorder n = before ++ m :: after ∧
        ∀ x ∈ before, ¬ (x.type = NodeType.ElementNode ∧
          ∃ a ∈ x.attr, a.Key = "class".toList ∧ a.Val = c)) ∧
    (findFirstNodeByClass n c = none ↔
      ¬ ∃ m ∈ preorder n, m.type = NodeType.ElementNode ∧
          ∃ a ∈ m.attr, a.Key = "class".toList ∧ a.Val = c) := by
  refine ⟨?_, findFirstNodeByClass_eq_none_iff n c⟩
  intro m
  rw [findFirstNodeByClass_eq_find, List.find?_eq_some, carriesClass_iff]
  constructor
  · rintro ⟨h1, before, after, h2, h3⟩
    refine ⟨h1, before, after, h2, ?_⟩
    intro x hx hc
    have := h3 x hx
    rw [(carriesClass_iff c x).2 hc] at this
    simp at this
  · rintro ⟨h1, before, after, h2, h3⟩
    refine ⟨h1, before, after, h2, ?_⟩
    intro x hx
    have := h3 x hx
    rw [← carriesClass_iff] at this
    simpa using this

/-- C15 at the scenario document: the container is found below `html` and `body`, and no
node carries the class `noSuchClass`. -/
theorem C15_findFirstNodeByClass_witness :
    findFirstNodeByClass scenarioDoc "bodyContainer".toList = some scenarioContainer ∧
    findFirstNodeByClass scenarioDoc "noSuchClass".toList = none :=
  ⟨by rfl, (C15_findFirstNodeByClass scenarioDoc "noSuchClass".toList).2.2 (by decide)⟩

/-! ### A highlight before the first section marker -/

theorem parseLoop_item_no_section (it : Item) (nb : Notebook)
    (hwf : it.wellFormed = true) :
    parseLoop { nb := nb, crtSection := none, crtHighlight := none, insideNote := false }
        it.nodes =
      .ok { nb := nb, crtSection := none, crtHighlight := some it.highlight,
            insideNote := false } := by
  obtain ⟨hdr, body, note⟩ := it
  simp only [Item.wellFormed, Bool.and_eq_true] at hwf
  obtain ⟨⟨h1, h2⟩, h3⟩ := hwf
  obtain ⟨hE, hH, hd, hp⟩ := (isHeader_iff _ hdr).1 h1
  have hstep := parseChild_highlight_none
    { nb := nb, crtSection := none, crtHighlight := none, insideNote := false }
    hdr _ hE hH hd hp rfl
  cases note with
  | none =>
    simp only [Item.nodes, parseLoop, hstep, parseChild_text_body _ _ _ _ body h2]
    simp [Item.highlight, Item.noteText, parseHighlightNode_note]
  | some p =>
    obtain ⟨nh, nt⟩ := p
    simp only [Bool.and_eq_true] at h3
    simp only [Item.nodes, parseLoop, hstep, parseChild_text_body _ _ _ _ body h2,
      parseChild_note_header _ nh h3.1, parseChild_text_body _ _ _ _ nt h3.2]
    simp [Item.highlight, Item.noteText]

/-- C19. When the element children of the container are one highlight item `h0` (a
`Highlight` header with its text body), then the first section marker, then `k ≥ 0`
further highlight items, `Parse` on the empty notebook completes with a nil error and
one section, whose highlights are `h0` followed by the `k` items: the highlight that
precedes the first section marker is attributed to that section. -/
theorem C19_highlight_before_first_section (doc bc : Node) (h0 : Item) (marker : Node)
    (items : List Item)
    (hbc : findFirstNodeByClass doc "bodyContainer".toList = some bc)
    (hch : bc.children.filter (fun c => c.type = NodeType.ElementNode) =
      h0.nodes ++ marker :: items.flatMap Item.nodes)
    (h0wf : h0.wellFormed = true)
    (hm : isMarker SectionClass marker = true)
    (hwf : ∀ it ∈ items, it.wellFormed = true) :
    ∃ nb1, Parse Notebook.empty doc = .ok (none, nb1) ∧
      nb1.Sections = [some
        { Title := TrimSpace (firstChildText marker)
          Highlights := some h0.highlight :: items.map (fun it => some it.highlight) }] ∧
      ∀ s, nb1.Sections = [some s] →
        s.Highlights.length = items.length + 1 ∧ s.Highlights.head? = some (some h0.highlight) := by
  have h1 := parseLoop_item_no_section h0 Notebook.empty h0wf
  obtain ⟨hE, hS, hd⟩ := (isMarker_iff _ marker).1 hm
  have h2 := parseChild_section
    { nb := Notebook.empty, crtSection := none, crtHighlight := some h0.highlight,
      insideNote := false } marker _ hE hS hd
  obtain ⟨sec1, ho1, h3, h4, h5, h6⟩ := parseLoop_items items Notebook.empty
    { Title := TrimSpace (firstChildText marker), Highlights := [] } (some h0.highlight) hwf
  obtain ⟨hl, rfl⟩ := Option.isSome_iff_exists.1 (h6 (Or.inl rfl))
  have hloop : parseLoop (ParseState.init Notebook.empty) bc.children =
      .ok { nb := Notebook.empty, crtSection := some sec1, crtHighlight := some hl,
            insideNote := false } := by
    rw [parseLoop_filter_element, hch]
    have h1' : parseLoop (ParseState.init Notebook.empty) h0.nodes = _ := h1
    rw [parseLoop_append _ _ _ _ h1']
    simp only [parseLoop, h2]
    exact h3
  have hsec : sec1.Highlights ++ [some hl] =
      some h0.highlight :: items.map (fun it => some it.highlight) := by
    simpa [pendingHighlights] using h5
  have hT : sec1.Title = TrimSpace (firstChildText marker) := h4
  have hres : Parse Notebook.empty doc = .ok (none,
      { Title := [], Author := [],
        Sections := [some
          { Title := TrimSpace (firstChildText marker)
            Highlights := some h0.highlight :: items.map (fun it => some it.highlight) }] }) := by
    simp only [Parse, hbc, hloop, parseFinish, flushSection]
    simp [Notebook.empty, hsec, hT]
  refine ⟨_, hres, rfl, ?_⟩
  intro s hs
  simp only [List.cons.injEq, Option.some.injEq, and_true] at hs
  subst hs
  simp

/-- C19 at a document with a stray highlight before the section `Ch 1` and its two
highlights. -/
theorem C19_highlight_before_first_section_witness :
    ∃ nb1, Parse Notebook.empty docStrayHighlight = .ok (none, nb1) ∧
      nb1.Sections = [some
        { Title := "Ch 1".toList
          Highlights :=
            [ some { Color := "orange".toList, Page := 0, Location := 3,
                     Text := "stray".toList, Note := [] },
              some { Color := "yellow".toList, Page := 115, Location := 954,
                     Text := "some text".toList, Note := "my note".toList },
              some { Color := "blue".toList, Page := 0, Location := 2364,
                     Text := "second".toList, Note := [] } ] }] :=
  (C19_highlight_before_first_section docStrayHighlight
      (elemNode "div" "bodyContainer" (strayItem.nodes ++ scenarioGroup.nodes)) strayItem
      scenarioGroup.marker scenarioGroup.items rfl rfl (by decide) (by decide)
      (by decide)).imp fun _ h => ⟨h.1, h.2.1⟩

/-! ### Duplicate occurrences in a header -/

theorem textMatches_of_split (lit : GoString) (n : Node) (before after : List Node)
    (c : Node) (i : Nat) (rest : List Nat)
    (hsplit : textChildren n = before ++ c :: after)
    (hocc : occurrences lit c.data = i :: rest)
    (hafter : ∀ x ∈ after, occurrences lit x.data = []) :
    (textMatches (findLitDigits lit) n.children).getLast? = some (digitRunAt lit c.data i) := by
  have h1 : List.filterMap
      (fun c => ((occurrences lit c.data).map (digitRunAt lit c.data)).head?) after = [] := by
    rw [List.filterMap_eq_nil_iff]
    intro x hx
    simp [hafter x hx]
  rw [textMatches_eq, hsplit, List.filterMap_append, List.filterMap_cons, h1, hocc]
  simp

theorem atoi_digitRunAt (lit s : GoString) (i : Nat) (rest : List Nat)
    (hocc : occurrences lit s = i :: rest)
    (hfit : (decimalValue (digitRunAt lit s i) : Int) ≤ maxInt) :
    (Atoi (digitRunAt lit s i)).1 = decimalValue (digitRunAt lit s i) := by
  have hi : i ∈ occurrences lit s := by
    rw [hocc]
    exact List.mem_cons_self _ _
  have hd := digitRunAt_of_occursAt lit s i (List.mem_filter.1 hi).2
  rw [atoi_of_fits _ hd.1 hd.2 hfit]

/-- C17 (counterexample). A header whose single text child holds `Location 1` and then
`Location 2` gets `Location = 1`, the first occurrence, not the last one; likewise
`Page = 4` for `Page 4` followed by `Page 5`. -/
theorem C17_first_occurrence_in_a_text_child_wins :
    digitRunsIn "Location ".toList headerTwoLocations = ["1".toList, "2".toList] ∧
    (parseHighlightNode headerTwoLocations).Location = 1 ∧
    (parseHighlightNode headerTwoLocations).Location ≠ (decimalValue "2".toList : Int) ∧
    digitRunsIn "Page ".toList headerTwoLocations = ["4".toList, "5".toList] ∧
    (parseHighlightNode headerTwoLocations).Page = 4 := by
  decide

/-- C17 (amended). When `c` is the last text child of a header in which `Location `
followed by digits occurs, `parseHighlightNode` stores the value of the first occurrence
in `c` (a value that fits in an `int`): a later text child overwrites an earlier one,
and within one text child the leftmost occurrence is taken. The same holds for `Page`. -/
theorem C17_last_text_child_leftmost_occurrence (n : Node) (before after : List Node)
    (c : Node) (hsplit : textChildren n = before ++ c :: after) :
    (∀ i rest, occurrences "Location ".toList c.data = i :: rest →
      (∀ x ∈ after, occurrences "Location ".toList x.data = []) →
      (decimalValue (digitRunAt "Location ".toList c.data i) : Int) ≤ maxInt →
      (parseHighlightNode n).Location =
        decimalValue (digitRunAt "Location ".toList c.data i)) ∧
    (∀ i rest, occurrences "Page ".toList c.data = i :: rest →
      (∀ x ∈ after, occurrences "Page ".toList x.data = []) →
      (decimalValue (digitRunAt "Page ".toList c.data i) : Int) ≤ maxInt →
      (parseHighlightNode n).Page = decimalValue (digitRunAt "Page ".toList c.data i)) := by
  constructor
  · intro i rest hocc hafter hfit
    rw [parseHighlightNode_location]
    unfold reExtractLocation
    rw [textMatches_of_split _ n before after c i rest hsplit hocc hafter]
    exact atoi_digitRunAt _ _ i rest hocc hfit
  · intro i rest hocc hafter hfit
    rw [parseHighlightNode_page]
    unfold reExtractPage
    rw [textMatches_of_split _ n before after c i rest hsplit hocc hafter]
    exact atoi_digitRunAt _ _ i rest hocc hfit

/-- C17 (amended) at a header with `Location 1` in its first text child and `Page 7`,
`Location 2`, `Location 3`, `Page 8` in its second: `Location = 2` and `Page = 7`. -/
theorem C17_last_text_child_leftmost_occurrence_witness :
    (parseHighlightNode headerManyLocations).Location = 2 ∧
    (parseHighlightNode headerManyLocations).Page = 7 :=
  ⟨(C17_last_text_child_leftmost_occurrence headerManyLocations
      [textNode "Highlight - Location 1"] []
      (textNode " Page 7 - Location 2 - Location 3 - Page 8") rfl).1 10 [23]
      (by decide) (by decide) (by decide),
   (C17_last_text_child_leftmost_occurrence headerManyLocations
      [textNode "Highlight - Location 1"] []
      (textNode " Page 7 - Location 2 - Location 3 - Page 8") rfl).2 1 [36]
      (by decide) (by decide) (by decide)⟩

/-! ### Title and author -/

/-- A child that is not a title marker leaves the notebook's `Title` alone. -/
theorem parseChild_frame_title (st st1 : ParseState) (c : Node)
    (hS : hasClassLabel TitleClass c = false)
    (h : parseChild st c = .ok st1) : st1.nb.Title = st.nb.Title := by
  by_cases hE : c.type = NodeType.ElementNode
  · have hS1 : ¬ getClassAttr c = TitleClass := by
      simpa [hasClassLabel, hE] using hS
    unfold parseChild at h
    simp only [hE, hS1, ne_eq, not_true_eq_false, if_false] at h
    repeat' (split at h)
    all_goals (first | (injection h with h; subst h; simp [*, flushSection]) | (simp at h))
  · rw [parseChild_of_not_element st c hE] at h
    injection h with h
    subst h
    rfl

/-- A child that is not an author marker leaves the notebook's `Author` alone. -/
theorem parseChild_frame_author (st st1 : ParseState) (c : Node)
    (hS : hasClassLabel AuthorClass c = false)
    (h : parseChild st c = .ok st1) : st1.nb.Author = st.nb.Author := by
  by_cases hE : c.type = NodeType.ElementNode
  · have hS1 : ¬ getClassAttr c = AuthorClass := by
      simpa [hasClassLabel, hE] using hS
    unfold parseChild at h
    simp only [hE, hS1, ne_eq, not_true_eq_false, if_false] at h
    repeat' (split at h)
    all_goals (first | (injection h with h; subst h; simp [*, flushSection]) | (simp at h))
  · rw [parseChild_of_not_element st c hE] at h
    injection h with h
    subst h
    rfl

theorem firstChildData_eq (c : Node) (d : GoString) (h : firstChildData c = .ok d) :
    d = firstChildText c := by
  unfold firstChildData at h
  unfold firstChildText
  cases hc : c.children with
  | nil => simp [hc] at h
  | cons x xs =>
    simp only [hc] at h
    injection h with h
    exact h.symm

theorem parseChild_title_of_ok (st st1 : ParseState) (c : Node)
    (hS : hasClassLabel TitleClass c = true) (h : parseChild st c = .ok st1) :
    st1 = { st with nb := { st.nb with Title := TrimSpace (firstChildText c) } } := by
  simp only [hasClassLabel, Bool.and_eq_true, decide_eq_true_eq] at hS
  cases hd : firstChildData c with
  | error e =>
    have h1 : ¬ TitleClass = SectionClass := by decide
    have h2 : ¬ TitleClass = HighlightClass := by decide
    have h3 : ¬ TitleClass = NoteTextClass := by decide
    have h4 : ¬ TitleClass = AuthorClass := by decide
    simp [parseChild, hS.1, hS.2, hd, h1, h2, h3, h4] at h
  | ok d =>
    rw [parseChild_title st c d hS.1 hS.2 hd] at h
    injection h with h
    rw [← h, firstChildData_eq c d hd]

theorem parseChild_author_of_ok (st st1 : ParseState) (c : Node)
    (hS : hasClassLabel AuthorClass c = true) (h : parseChild st c = .ok st1) :
    st1 = { st with nb := { st.nb with Author := TrimSpace (firstChildText c) } } := by
  simp only [hasClassLabel, Bool.and_eq_true, decide_eq_true_eq] at hS
  cases hd : firstChildData c with
  | error e =>
    have h1 : ¬ AuthorClass = SectionClass := by decide
    have h2 : ¬ AuthorClass = HighlightClass := by decide
    have h3 : ¬ AuthorClass = NoteTextClass := by decide
    simp [parseChild, hS.1, hS.2, hd, h1, h2, h3] at h
  | ok d =>
    rw [parseChild_author st c d hS.1 hS.2 hd] at h
    injection h with h
    rw [← h, firstChildData_eq c d hd]

theorem lastMarkerText_cons (cls : GoString) (c : Node) (cs : List Node) (dflt : GoString) :
    lastMarkerText cls (c :: cs) dflt =
      lastMarkerText cls cs
        (if hasClassLabel cls c then TrimSpace (firstChildText c) else dflt) := by
  unfold lastMarkerText
  rw [List.filter_cons]
  cases hc : hasClassLabel cls c
  · simp
  · simp only [if_true]
    cases hl : List.filter (hasClassLabel cls) cs with
    | nil => simp
    | cons x xs =>
      obtain ⟨z, hz⟩ : ∃ z, (x :: xs).getLast? = some z :=
        ⟨_, List.getLast?_eq_getLast _ (List.cons_ne_nil _ _)⟩
      simp [hz]

theorem parseLoop_title_author (cs : List Node) (st st1 : ParseState)
    (h : parseLoop st cs = .ok st1) :
    st1.nb.Title = lastMarkerText TitleClass cs st.nb.Title ∧
    st1.nb.Author = lastMarkerText AuthorClass cs st.nb.Author := by
  induction cs generalizing st with
  | nil =>
    simp only [parseLoop] at h
    injection h with h
    subst h
    exact ⟨rfl, rfl⟩
  | cons c cs ih =>
    simp only [parseLoop] at h
    cases hc : parseChild st c with
    | error e => simp [hc] at h
    | ok st2 =>
      simp only [hc] at h
      obtain ⟨h1, h2⟩ := ih st2 h
      rw [lastMarkerText_cons, lastMarkerText_cons, h1, h2]
      constructor
      · cases ht : hasClassLabel TitleClass c
        · rw [parseChild_frame_title st st2 c ht hc]
          simp
        · rw [parseChild_title_of_ok st st2 c ht hc]
          simp
      · cases ht : hasClassLabel AuthorClass c
        · rw [parseChild_frame_author st st2 c ht hc]
          simp
        · rw [parseChild_author_of_ok st st2 c ht hc]
          simp

/-- C16. When `Parse` completes on a document with container `bc`, `Title` is the trimmed
first-child text of the last `bookTitle` element child of `bc`, or the value it had
before the call when `bc` has no such child; likewise `Author` with the `authors`
children; and processing a `bookTitle` or `authors` child changes nothing but that
field: the section list, the current section, the current highlight and the note flag
stay as they are. -/
theorem C16_title_author (nb nb1 : Notebook) (doc bc : Node) (e : Option ParseError)
    (hbc : findFirstNodeByClass doc "bodyContainer".toList = some bc)
    (hp : Parse nb doc = .ok (e, nb1)) :
    nb1.Title = lastMarkerText TitleClass bc.children nb.Title ∧
    nb1.Author = lastMarkerText AuthorClass bc.children nb.Author ∧
    (∀ st st1 c, hasClassLabel TitleClass c = true → parseChild st c = .ok st1 →
      st1 = { st with nb := { st.nb with Title := TrimSpace (firstChildText c) } }) ∧
    (∀ st st1 c, hasClassLabel AuthorClass c = true → parseChild st c = .ok st1 →
      st1 = { st with nb := { st.nb with Author := TrimSpace (firstChildText c) } }) := by
  refine ⟨?_, ?_, parseChild_title_of_ok, parseChild_author_of_ok⟩
  all_goals
    simp only [Parse, hbc] at hp
    cases hl : parseLoop (ParseState.init nb) bc.children with
    | error e => simp [hl] at hp
    | ok st =>
      simp only [hl] at hp
      obtain ⟨h1, h2⟩ := parseLoop_title_author _ _ _ hl
      unfold parseFinish at hp
      cases hs : st.crtSection with
      | none => simp [hs] at hp
      | some sec =>
        simp only [hs] at hp
        injection hp with hp
        injection hp with _ hp
        subst hp
        first
          | exact h1
          | exact h2

/-- C16 at a document with the title markers ` Draft ` and ` My Book ` and one author
marker: the last title wins. -/
theorem C16_title_author_witness :
    ∃ nb1, Parse Notebook.empty docTwoTitles = .ok (none, nb1) ∧
      nb1.Title = "My Book".toList ∧ nb1.Author = "J. Doe".toList :=
  ⟨_, rfl,
    (C16_title_author Notebook.empty _ docTwoTitles _ none rfl rfl).1.trans (by decide),
    (C16_title_author Notebook.empty _ docTwoTitles _ none rfl rfl).2.1.trans (by decide)⟩

/-! ### Nil entries and panics -/

/-- C12 (failing input). For a container that holds one section marker and no highlight
header, `Parse` completes and the section's `Highlights` list holds one nil entry. -/
theorem C12_section_without_header_holds_nil :
    Parse Notebook.empty docLoneSection = .ok (none,
      { Title := [], Author := [],
        Sections := [some { Title := "A".toList, Highlights := [none] }] }) := by
  rfl

theorem panic_eq (e : Panic) : e = Panic.nilDereference := by
  cases e
  rfl

theorem parseLoop_no_section (cs : List Node) (st st1 : ParseState)
    (hcs : cs.filter isSectionMarker = []) (h : parseLoop st cs = .ok st1) :
    st1.crtSection.isSome = st.crtSection.isSome := by
  induction cs generalizing st with
  | nil =>
    simp only [parseLoop] at h
    injection h with h
    subst h
    rfl
  | cons c cs ih =>
    simp only [parseLoop] at h
    cases hc : parseChild st c with
    | error e => simp [hc] at h
    | ok st2 =>
      simp only [hc] at h
      rw [List.filter_cons] at hcs
      cases hm : isSectionMarker c with
      | true => simp [hm] at hcs
      | false =>
        simp only [hm, Bool.false_eq_true, if_false] at hcs
        rw [ih st2 hcs h, (parseChild_frame_sections st st2 c hm hc).2]

/-- A child on which the loop body panics in every state makes the loop panic. -/
theorem parseLoop_panic_of_child (before after : List Node) (c : Node) (st : ParseState)
    (hc : ∀ s, parseChild s c = .error Panic.nilDereference) :
    parseLoop st (before ++ c :: after) = .error Panic.nilDereference := by
  induction before generalizing st with
  | nil => simp only [List.nil_append, parseLoop, hc]
  | cons x xs ih =>
    simp only [List.cons_append, parseLoop]
    cases hx : parseChild st x with
    | error e => rw [panic_eq e]
    | ok st2 => exact ih st2

theorem parseChild_childless_panics (st : ParseState) (c : Node)
    (hE : c.type = NodeType.ElementNode) (hC : getClassAttr c ∈ recognizedClasses)
    (hch : c.children = []) : parseChild st c = .error Panic.nilDereference := by
  have hd : firstChildData c = .error Panic.nilDereference := by
    simp [firstChildData, hch]
  have ht : parseTextNode c = .error Panic.nilDereference ∨ getClassAttr c ≠ NoteTextClass := by
    by_cases h : getClassAttr c = NoteTextClass
    · left
      simp [parseTextNode, h, hd]
    · exact Or.inr h
  simp only [recognizedClasses, List.mem_cons, List.mem_singleton, List.not_mem_nil,
    or_false] at hC
  have h1 : ¬ HighlightClass = SectionClass := by decide
  have h2 : ¬ NoteTextClass = SectionClass := by decide
  have h3 : ¬ NoteTextClass = HighlightClass := by decide
  have h4 : ¬ AuthorClass = SectionClass := by decide
  have h5 : ¬ AuthorClass = HighlightClass := by decide
  have h6 : ¬ AuthorClass = NoteTextClass := by decide
  have h7 : ¬ TitleClass = SectionClass := by decide
  have h8 : ¬ TitleClass = HighlightClass := by decide
  have h9 : ¬ TitleClass = NoteTextClass := by decide
  have h10 : ¬ TitleClass = AuthorClass := by decide
  rcases hC with h | h | h | h | h
  · simp [parseChild, hE, h, hd]
  · simp [parseChild, hE, h, hd, h1]
  · rcases ht with ht | ht
    · simp [parseChild, hE, h, ht, h2, h3]
    · exact absurd h ht
  · simp [parseChild, hE, h, hd, h4, h5, h6]
  · simp [parseChild, hE, h, hd, h7, h8, h9, h10]

/-- A child that is not a `Highlight` header leaves a nil current highlight nil. -/
theorem parseChild_keeps_no_highlight (st st1 : ParseState) (c : Node)
    (hh : st.crtHighlight = none) (hc : isHeader "Highlight".toList c = false)
    (h : parseChild st c = .ok st1) : st1.crtHighlight = none := by
  obtain ⟨nb, so, ho, b⟩ := st
  simp only at hh
  subst hh
  by_cases hE : c.type = NodeType.ElementNode
  · by_cases hH : getClassAttr c = HighlightClass
    · have h1 : ¬ HighlightClass = SectionClass := by decide
      cases hd : firstChildData c with
      | error e => simp [parseChild, hE, hH, h1, hd] at h
      | ok d =>
        have hd2 := firstChildData_eq c d hd
        have hne : c.children ≠ [] := by
          intro hn
          simp [firstChildData, hn] at hd
        have hp : HasPrefix (TrimLeftFunc d IsSpace) "Highlight".toList = false := by
          have := hc
          simp only [isHeader, isMarker, hE, hH, Bool.and_eq_false_iff] at this
          subst hd2
          rcases this with this | this
          · simp [hne] at this
          · exact this
        simp only [parseChild, hE, hH, h1, hd, hp, ne_eq, not_true_eq_false, if_false,
          Bool.false_eq_true] at h
        split_ifs at h <;> (injection h with h; subst h; rfl)
    · unfold parseChild at h
      simp only [hE, hH, ne_eq, not_true_eq_false, if_false] at h
      repeat' (split at h)
      all_goals (first | (injection h with h; subst h; simp [*]) | (simp at h))
  · rw [parseChild_of_not_element _ c hE] at h
    injection h with h
    subst h
    rfl

theorem parseChild_noteText_without_highlight (st : ParseState) (c : Node)
    (hh : st.crtHighlight = none) (hc : hasClassLabel NoteTextClass c = true) :
    parseChild st c = .error Panic.nilDereference := by
  simp only [hasClassLabel, Bool.and_eq_true, decide_eq_true_eq] at hc
  cases ht : parseTextNode c with
  | error e =>
    have h2 : ¬ NoteTextClass = SectionClass := by decide
    have h3 : ¬ NoteTextClass = HighlightClass := by decide
    simp [parseChild, hc.1, hc.2, ht, h2, h3, panic_eq e]
  | ok t => exact parseChild_noteText_panic st c t hc.1 hc.2 ht hh

theorem parseLoop_text_before_highlight (before after : List Node) (c : Node)
    (st : ParseState) (hh : st.crtHighlight = none)
    (hb : ∀ x ∈ before, isHeader "Highlight".toList x = false)
    (hc : hasClassLabel NoteTextClass c = true) :
    parseLoop st (before ++ c :: after) = .error Panic.nilDereference := by
  induction before generalizing st with
  | nil =>
    simp only [List.nil_append, parseLoop, parseChild_noteText_without_highlight st c hh hc]
  | cons x xs ih =>
    simp only [List.cons_append, parseLoop]
    cases hx : parseChild st x with
    | error e => rw [panic_eq e]
    | ok st2 =>
      exact ih st2
        (parseChild_keeps_no_highlight st st2 x hh (hb x (List.mem_cons_self _ _)) hx)
        (fun y hy => hb y (List.mem_cons_of_mem _ hy))

/-- C11 (counterexample). A document whose container has no children makes `Parse`
panic: the statements after the loop dereference the nil current section. -/
theorem C11_empty_container_panics :
    findFirstNodeByClass docEmptyContainer "bodyContainer".toList =
      some (elemNode "div" "bodyContainer" []) ∧
    Parse Notebook.empty docEmptyContainer = .error Panic.nilDereference ∧
    ¬ ∃ nb1, Parse Notebook.empty docEmptyContainer = .ok (none, nb1) := by
  have h : Parse Notebook.empty docEmptyContainer = .error Panic.nilDereference := rfl
  refine ⟨rfl, h, ?_⟩
  rintro ⟨nb1, h1⟩
  rw [h] at h1
  cases h1

/-- C11 (amended). For a document with the container `bc`, `Parse` never returns a
non-nil error: it completes with a nil error or it panics on a nil dereference. It
panics when no element child of `bc` is a section marker, when an element child with one
of the five recognized class labels has no child, and when a `noteText` child comes
before every `Highlight` header. -/
theorem C11_nil_error_or_panic (nb : Notebook) (doc bc : Node)
    (hbc : findFirstNodeByClass doc "bodyContainer".toList = some bc) :
    (Parse nb doc = .error Panic.nilDereference ∨ ∃ nb1, Parse nb doc = .ok (none, nb1)) ∧
    (bc.children.filter isSectionMarker = [] →
      Parse nb doc = .error Panic.nilDereference) ∧
    (∀ before c after, bc.children = before ++ c :: after →
      c.type = NodeType.ElementNode → getClassAttr c ∈ recognizedClasses → c.children = [] →
      Parse nb doc = .error Panic.nilDereference) ∧
    (∀ before c after, bc.children = before ++ c :: after →
      hasClassLabel NoteTextClass c = true →
      (∀ x ∈ before, isHeader "Highlight".toList x = false) →
      Parse nb doc = .error Panic.nilDereference) := by
  refine ⟨?_, ?_, ?_, ?_⟩
  · cases hl : parseLoop (ParseState.init nb) bc.children with
    | error e =>
      left
      simp only [Parse, hbc, hl, panic_eq e]
    | ok st =>
      cases hf : parseFinish st with
      | error e =>
        left
        simp only [Parse, hbc, hl, hf, panic_eq e]
      | ok nb1 =>
        right
        exact ⟨nb1, by simp only [Parse, hbc, hl, hf]⟩
  · intro hcs
    simp only [Parse, hbc]
    cases hl : parseLoop (ParseState.init nb) bc.children with
    | error e => rw [panic_eq e]
    | ok st =>
      have hs := parseLoop_no_section _ _ _ hcs hl
      have hn : st.crtSection = none := by
        simpa [ParseState.init] using hs
      simp [parseFinish, hn]
  · intro before c after hch hE hC hcc
    simp only [Parse, hbc, hch,
      parseLoop_panic_of_child before after c (ParseState.init nb)
        (fun s => parseChild_childless_panics s c hE hC hcc)]
  · intro before c after hch hc hb
    simp only [Parse, hbc, hch,
      parseLoop_text_before_highlight before after c (ParseState.init nb) rfl hb hc]

/-- C11 (amended) at three documents with the container: one without section marker, one
with a childless `authors` marker and one with a text body before any highlight header;
and at the scenario document, on which `Parse` completes. -/
theorem C11_nil_error_or_panic_witness :
    Parse Notebook.empty docEmptyContainer = .error Panic.nilDereference ∧
    Parse Notebook.empty docChildlessAuthor = .error Panic.nilDereference ∧
    Parse Notebook.empty docTextBeforeHighlight = .error Panic.nilDereference ∧
    (Parse Notebook.empty scenarioDoc = .error Panic.nilDereference ∨
      ∃ nb1, Parse Notebook.empty scenarioDoc = .ok (none, nb1)) :=
  ⟨(C11_nil_error_or_panic Notebook.empty docEmptyContainer _ rfl).2.1 rfl,
   (C11_nil_error_or_panic Notebook.empty docChildlessAuthor _ rfl).2.2.1
      [elemNode "div" "sectionHeading" [textNode "A"]] (elemNode "div" "authors" []) []
      rfl rfl (by decide) rfl,
   (C11_nil_error_or_panic Notebook.empty docTextBeforeHighlight _ rfl).2.2.2
      [elemNode "div" "sectionHeading" [textNode "A"]]
      (elemNode "div" "noteText" [textNode "orphan"])
      [elemNode "div" "noteHeading" [textNode "Highlight - Location 1"]]
      rfl (by decide) (by decide),
   (C11_nil_error_or_panic Notebook.empty scenarioDoc _ rfl).1⟩

/-! ### Edits of the container's children -/

/-- A node with other children. -/
theorem node_eta (n : Node) : Node.mk n.type n.data n.attr n.children = n := by
  cases n
  rfl

mutual
theorem findFirstNodeByClass_editContainer (f : List Node → List Node) (n : Node) :
    findFirstNodeByClass (editContainer f n) "bodyContainer".toList =
      (findFirstNodeByClass n "bodyContainer".toList).map
        (fun bc => Node.mk bc.type bc.data bc.attr (f bc.children)) := by
  match n with
  | Node.mk t d a cs =>
    by_cases h : (t = NodeType.ElementNode && hasClassAttr a "bodyContainer".toList) = true
    · simp only [editContainer, findFirstNodeByClass, h, if_true, Option.map_some']
      rfl
    · simp only [editContainer, findFirstNodeByClass, h, if_false, Bool.false_eq_true]
      exact findFirstInChildren_editContainerIn f cs
theorem findFirstInChildren_editContainerIn (f : List Node → List Node) (cs : List Node) :
    findFirstInChildren (editContainerIn f cs) "bodyContainer".toList =
      (findFirstInChildren cs "bodyContainer".toList).map
        (fun bc => Node.mk bc.type bc.data bc.attr (f bc.children)) := by
  match cs with
  | [] => rfl
  | c :: cs =>
    cases hc : findFirstNodeByClass c "bodyContainer".toList with
    | none =>
      simp only [editContainerIn, hc, Option.isSome_none, Bool.false_eq_true, if_false,
        findFirstInChildren]
      exact findFirstInChildren_editContainerIn f cs
    | some bc =>
      simp only [editContainerIn, hc, Option.isSome_some, if_true, findFirstInChildren,
        findFirstNodeByClass_editContainer f c, Option.map_some']
end

/-- An edit of the container's children that the traversal loop cannot tell from the
original leaves the outcome of `Parse` as it is. -/
theorem parse_editContainer (f : List Node → List Node) (nb : Notebook) (doc : Node)
    (hf : ∀ st cs, parseLoop st (f cs) = parseLoop st cs) :
    Parse nb (editContainer f doc) = Parse nb doc := by
  unfold Parse
  rw [findFirstNodeByClass_editContainer]
  cases findFirstNodeByClass doc "bodyContainer".toList with
  | none => rfl
  | some bc => simp only [Option.map_some', Node.children, hf]

theorem parseChild_ignored (st : ParseState) (x : Node) (hx : ignoredChild x = true) :
    parseChild st x = .ok st := by
  by_cases hE : x.type = NodeType.ElementNode
  · simp only [ignoredChild, hE, ne_eq, not_true_eq_false, decide_False, Bool.false_or,
      Bool.or_eq_true, decide_eq_true_eq, Bool.and_eq_true, Bool.not_eq_true',
      recognizedClasses, List.mem_cons, List.mem_singleton, List.not_mem_nil, or_false,
      not_or] at hx
    rcases hx with hx | hx
    · obtain ⟨h1, h2, h3, h4, h5⟩ := hx
      simp [parseChild, hE, h1, h2, h3, h4, h5]
    · obtain ⟨⟨⟨h1, h2⟩, h3⟩, h4⟩ := hx
      have hs : ¬ HighlightClass = SectionClass := by decide
      have hd : firstChildData x = .ok (firstChildText x) := by
        unfold firstChildData firstChildText
        cases hc : x.children with
        | nil => simp [hc] at h2
        | cons y ys => rfl
      simp only [parseChild, hE, h1, hs, hd, h3, h4, ne_eq, not_true_eq_false, if_false, if_true,
        Bool.false_eq_true]
  · exact parseChild_of_not_element st x hE

theorem parseLoop_insert_ignored (before after : List Node) (x : Node) (st : ParseState)
    (hx : ignoredChild x = true) :
    parseLoop st (before ++ x :: after) = parseLoop st (before ++ after) := by
  induction before generalizing st with
  | nil => simp only [List.nil_append, parseLoop, parseChild_ignored st x hx]
  | cons c cs ih =>
    simp only [List.cons_append, parseLoop]
    cases parseChild st c with
    | error e => rfl
    | ok st2 => exact ih st2

/-- C14. Inserting, at any position among the children of the container, a node that is
not an element, an element whose class label is none of the five recognized ones, or a
`noteHeading` element whose first child's text starts (leading white space apart) with
neither `Highlight` nor `Note`, does not change what `Parse` returns: the same notebook
and error, or the same panic. -/
theorem C14_ignored_child_insertion (nb : Notebook) (doc x : Node) (i : Nat)
    (hx : ignoredChild x = true) :
    Parse nb (editContainer (insertAt i x) doc) = Parse nb doc := by
  apply parse_editContainer
  intro st cs
  unfold insertAt
  rw [parseLoop_insert_ignored _ _ x st hx, List.take_append_drop]

/-- C14 at the scenario document with four ignored nodes inserted. -/
theorem C14_ignored_child_insertion_witness :
    Parse Notebook.empty scenarioWithIgnored = Parse Notebook.empty scenarioDoc ∧
    (findFirstNodeByClass scenarioWithIgnored "bodyContainer".toList).map
      (fun bc => bc.children.length) = some 15 ∧
    (findFirstNodeByClass scenarioDoc "bodyContainer".toList).map
      (fun bc => bc.children.length) = some 11 :=
  ⟨(C14_ignored_child_insertion Notebook.empty _ _ 0 (by decide)).trans
    ((C14_ignored_child_insertion Notebook.empty _ _ 3 (by decide)).trans
      ((C14_ignored_child_insertion Notebook.empty _ _ 5 (by decide)).trans
        (C14_ignored_child_insertion Notebook.empty _ _ 7 (by decide)))),
   by decide, by decide⟩

/-! ### White space around the texts -/

theorem dropWhile_append_of_all (p : Char → Bool) (w rest : GoString)
    (h : ∀ c ∈ w, p c = true) : (w ++ rest).dropWhile p = rest.dropWhile p := by
  induction w with
  | nil => rfl
  | cons c w ih =>
    rw [List.cons_append, List.dropWhile_cons, if_pos (h c (List.mem_cons_self _ _))]
    exact ih (fun x hx => h x (List.mem_cons_of_mem _ hx))

theorem trimLeftFunc_pad (f : Char → Bool) (w t : GoString) (h : ∀ c ∈ w, f c = true) :
    TrimLeftFunc (w ++ t) f = TrimLeftFunc t f :=
  dropWhile_append_of_all f w t h

theorem trimRightFunc_pad (f : Char → Bool) (t w : GoString) (h : ∀ c ∈ w, f c = true) :
    TrimRightFunc (t ++ w) f = TrimRightFunc t f := by
  unfold TrimRightFunc
  rw [List.reverse_append, dropWhile_append_of_all f w.reverse t.reverse
    (fun c hc => h c (List.mem_reverse.1 hc))]

theorem trimFunc_pad (f : Char → Bool) (w1 t w2 : GoString)
    (h1 : ∀ c ∈ w1, f c = true) (h2 : ∀ c ∈ w2, f c = true) :
    TrimFunc (w1 ++ t ++ w2) f = TrimFunc t f := by
  unfold TrimFunc
  rw [List.append_assoc, trimLeftFunc_pad f w1 _ h1]
  unfold TrimLeftFunc
  rw [List.dropWhile_append]
  split
  · rename_i he
    have h3 : t.dropWhile f = [] := List.isEmpty_iff.1 he
    have h4 : w2.dropWhile f = [] := by
      rw [← List.append_nil w2, dropWhile_append_of_all f w2 [] h2]
      rfl
    rw [h3, h4]
  · exact trimRightFunc_pad f _ w2 h2

theorem trimSpace_pad (w1 t w2 : GoString)
    (h1 : ∀ c ∈ w1, IsSpace c = true) (h2 : ∀ c ∈ w2, IsSpace c = true) :
    TrimSpace (w1 ++ t ++ w2) = TrimSpace t :=
  trimFunc_pad IsSpace w1 t w2 h1 h2

theorem findLitDigits_pad (l0 : Char) (ls w t : GoString) (hl : IsSpace l0 = false)
    (h : ∀ c ∈ w, IsSpace c = true) :
    findLitDigits (l0 :: ls) (w ++ t) = findLitDigits (l0 :: ls) t := by
  induction w with
  | nil => rfl
  | cons c w ih =>
    have hc := h c (List.mem_cons_self _ _)
    have hne : (c == l0) = false := by
      rw [beq_eq_false_iff_ne]
      rintro rfl
      rw [hl] at hc
      cases hc
    rw [List.cons_append, findLitDigits]
    simp only [HasPrefix, hne, Bool.false_and, Bool.false_eq_true, if_false]
    exact ih (fun x hx => h x (List.mem_cons_of_mem _ hx))

theorem parseHighlightChild_pad (h : Highlight) (x : Node) (w : GoString)
    (hw : ∀ c ∈ w, IsSpace c = true) :
    parseHighlightChild h (Node.mk x.type (w ++ x.data ++ []) x.attr x.children) =
      parseHighlightChild h x := by
  obtain ⟨t, d, a, cs⟩ := x
  have h1 : reExtractLocation (w ++ d) = reExtractLocation d :=
    findLitDigits_pad 'L' "ocation ".toList w d (by decide) hw
  have h2 : reExtractPage (w ++ d) = reExtractPage d :=
    findLitDigits_pad 'P' "age ".toList w d (by decide) hw
  simp only [parseHighlightChild, Node.type, Node.data, List.append_nil, h1, h2, getClassAttr,
    Node.attr]

theorem parseHighlightNode_pad (c : Node) (w : GoString) (hw : ∀ x ∈ w, IsSpace x = true) :
    parseHighlightNode (padFirstChild w [] c) = parseHighlightNode c := by
  obtain ⟨t, d, a, cs⟩ := c
  cases cs with
  | nil => rfl
  | cons x xs =>
    obtain ⟨xt, xd, xa, xc⟩ := x
    have hx := parseHighlightChild_pad Highlight.zero (Node.mk xt xd xa xc) w hw
    simp only [Node.type, Node.data, Node.attr, Node.children] at hx
    simp only [parseHighlightNode, padFirstChild, Node.children, List.foldl_cons, Node.type,
      Node.data, Node.attr, hx]

theorem isTrimmed_trimSpace (d : GoString) : isTrimmed (TrimSpace d) :=
  ⟨fun c => trimFunc_head d IsSpace c, fun c => trimFunc_getLast d IsSpace c⟩

theorem isTrimmed_nil : isTrimmed [] :=
  ⟨fun c h => by simp at h, fun c h => by simp at h⟩

/-- The loop body cannot tell a padded child from the original. -/
theorem parseChild_padChild (w1 w2 : GoString) (h1 : ∀ c ∈ w1, IsSpace c = true)
    (h2 : ∀ c ∈ w2, IsSpace c = true) (st : ParseState) (c : Node) :
    parseChild st (padChild w1 w2 c) = parseChild st c := by
  obtain ⟨t, d, a, cs⟩ := c
  cases cs with
  | nil =>
    unfold padChild
    split_ifs <;> rfl
  | cons x xs =>
    obtain ⟨xt, xd, xa, xc⟩ := x
    unfold padChild
    split_ifs with hc hh
    · obtain ⟨hE, hC⟩ := hc
      simp only [Node.type] at hE
      simp only [getClassAttr, Node.attr] at hC
      have hp : parseTextNode (Node.mk t d a
          (Node.mk xt (w1 ++ xd ++ w2) xa xc :: xs)) =
          parseTextNode (Node.mk t d a (Node.mk xt xd xa xc :: xs)) := by
        simp only [parseTextNode, getClassAttr, Node.attr, firstChildData, Node.children,
          Node.data, trimSpace_pad w1 xd w2 h1 h2]
      simp only [padFirstChild, Node.type, Node.data, Node.attr, Node.children]
      simp only [parseChild, hp]
      simp only [Node.type, getClassAttr, Node.attr, firstChildData, Node.children, Node.data,
        trimSpace_pad w1 xd w2 h1 h2]
      have hn : ¬ getClassAttrOf a = HighlightClass := by
        intro hn
        rw [hn] at hC
        revert hC
        decide
      simp only [hn, if_false]
    · obtain ⟨hE, hC⟩ := hh
      have hp := parseHighlightNode_pad (Node.mk t d a (Node.mk xt xd xa xc :: xs)) w1 h1
      simp only [padFirstChild, Node.type, Node.data, Node.attr, Node.children] at hp
      simp only [padFirstChild, Node.type, Node.data, Node.attr, Node.children]
      simp only [parseChild, hp]
      simp only [Node.type, getClassAttr, Node.attr, firstChildData, Node.children, Node.data,
        List.append_nil, trimLeftFunc_pad IsSpace w1 xd h1]
      simp only [getClassAttr, Node.attr] at hC
      have hs : ¬ HighlightClass = SectionClass := by decide
      simp only [hC, hs, if_false, if_true]
    · rfl

theorem parseLoop_modifyAt (g : Node → Node)
    (hg : ∀ st c, parseChild st (g c) = parseChild st c) (i : Nat) (cs : List Node)
    (st : ParseState) : parseLoop st (modifyAt g i cs) = parseLoop st cs := by
  induction cs generalizing i st with
  | nil => cases i <;> rfl
  | cons c cs ih =>
    cases i with
    | zero => simp only [modifyAt, parseLoop, hg]
    | succ i =>
      simp only [modifyAt, parseLoop]
      cases parseChild st c with
      | error e => rfl
      | ok st2 => exact ih i st2

theorem Highlight.trimmed_parseHighlightNode (n : Node) : (parseHighlightNode n).trimmed := by
  unfold Highlight.trimmed
  rw [parseHighlightNode_text, parseHighlightNode_note]
  exact ⟨isTrimmed_nil, isTrimmed_nil⟩

theorem Section.trimmed_append (sec : Section) (ho : Option Highlight)
    (hs : sec.trimmed) (hh : ∀ h, ho = some h → h.trimmed) :
    Section.trimmed { Title := sec.Title, Highlights := sec.Highlights ++ [ho] } := by
  refine ⟨hs.1, ?_⟩
  intro h hm
  simp only [List.mem_append, List.mem_singleton] at hm
  rcases hm with hm | hm
  · exact hs.2 h hm
  · exact hh h hm.symm

theorem Notebook.trimmed_flushSection (nb : Notebook) (sec : Section) (ho : Option Highlight)
    (hn : nb.trimmed) (hs : sec.trimmed) (hh : ∀ h, ho = some h → h.trimmed) :
    (flushSection nb sec ho).trimmed := by
  refine ⟨hn.1, hn.2.1, ?_⟩
  intro s hm
  simp only [flushSection, List.mem_append, List.mem_singleton, Option.some.injEq] at hm
  rcases hm with hm | hm
  · exact hn.2.2 s hm
  · rw [hm]
    exact Section.trimmed_append sec ho hs hh

/-- The loop body keeps the text fields trimmed. -/
theorem parseChild_trimmed (st st1 : ParseState) (c : Node) (ht : st.trimmed)
    (h : parseChild st c = .ok st1) : st1.trimmed := by
  obtain ⟨nb, so, ho, b⟩ := st
  obtain ⟨hn, hs, hh⟩ := ht
  simp only at hn hs hh
  have e1 : ¬ HighlightClass = SectionClass := by decide
  have e2 : ¬ NoteTextClass = SectionClass := by decide
  have e3 : ¬ NoteTextClass = HighlightClass := by decide
  have e4 : ¬ AuthorClass = SectionClass := by decide
  have e5 : ¬ AuthorClass = HighlightClass := by decide
  have e6 : ¬ AuthorClass = NoteTextClass := by decide
  have e7 : ¬ TitleClass = SectionClass := by decide
  have e8 : ¬ TitleClass = HighlightClass := by decide
  have e9 : ¬ TitleClass = NoteTextClass := by decide
  have e10 : ¬ TitleClass = AuthorClass := by decide
  by_cases hE : c.type = NodeType.ElementNode
  · unfold parseChild at h
    simp only [hE, ne_eq, not_true_eq_false, if_false] at h
    by_cases hS : getClassAttr c = SectionClass
    · simp only [hS, if_true] at h
      cases hd : firstChildData c with
      | error e => simp [hd] at h
      | ok d =>
        simp only [hd] at h
        injection h with h
        subst h
        cases so with
        | none =>
          exact ⟨hn, fun s hs2 => by
            simp only [Option.some.injEq] at hs2
            subst hs2
            exact ⟨isTrimmed_trimSpace d, fun h hm => by simp at hm⟩, hh⟩
        | some sec =>
          refine ⟨Notebook.trimmed_flushSection nb sec ho hn (hs sec rfl) hh, ?_, ?_⟩
          · intro s hs2
            simp only [Option.some.injEq] at hs2
            subst hs2
            exact ⟨isTrimmed_trimSpace d, fun h hm => by simp at hm⟩
          · intro h hm
            simp at hm
    · by_cases hH : getClassAttr c = HighlightClass
      · simp only [hH, e1, if_false, if_true] at h
        cases hd : firstChildData c with
        | error e => simp [hd] at h
        | ok d =>
          simp only [hd] at h
          split_ifs at h with hp hq
          · cases ho with
            | none =>
              try simp only at h
              injection h with h
              subst h
              exact ⟨hn, hs, fun h hm => by
                simp only [Option.some.injEq] at hm
                subst hm
                exact Highlight.trimmed_parseHighlightNode c⟩
            | some h0 =>
              cases so with
              | none => simp at h
              | some sec =>
                try simp only at h
                injection h with h
                subst h
                refine ⟨hn, ?_, ?_⟩
                · intro s hs2
                  simp only [Option.some.injEq] at hs2
                  subst hs2
                  exact Section.trimmed_append sec (some h0) (hs sec rfl) hh
                · intro h hm
                  simp only [Option.some.injEq] at hm
                  subst hm
                  exact Highlight.trimmed_parseHighlightNode c
          · injection h with h
            subst h
            exact ⟨hn, hs, hh⟩
          · injection h with h
            subst h
            exact ⟨hn, hs, hh⟩
      · by_cases hT : getClassAttr c = NoteTextClass
        · simp only [hT, e2, e3, if_false, if_true] at h
          have hpt : ∀ t, parseTextNode c = .ok t → isTrimmed t := by
            intro t hpt
            simp only [parseTextNode, hT, ne_eq, not_true_eq_false, if_false] at hpt
            cases hd : firstChildData c with
            | error e => simp [hd] at hpt
            | ok d =>
              simp only [hd] at hpt
              injection hpt with hpt
              rw [← hpt]
              exact isTrimmed_trimSpace d
          cases hp : parseTextNode c with
          | error e => simp [hp] at h
          | ok t =>
            simp only [hp] at h
            cases ho with
            | none => simp at h
            | some h0 =>
              try simp only at h
              split_ifs at h
              · injection h with h
                subst h
                refine ⟨hn, hs, ?_⟩
                intro h hm
                simp only [Option.some.injEq] at hm
                subst hm
                exact ⟨(hh h0 rfl).1, hpt t hp⟩
              · injection h with h
                subst h
                refine ⟨hn, hs, ?_⟩
                intro h hm
                simp only [Option.some.injEq] at hm
                subst hm
                exact ⟨hpt t hp, (hh h0 rfl).2⟩
        · by_cases hA : getClassAttr c = AuthorClass
          · simp only [hA, e4, e5, e6, if_false, if_true] at h
            cases hd : firstChildData c with
            | error e => simp [hd] at h
            | ok d =>
              simp only [hd] at h
              injection h with h
              subst h
              exact ⟨⟨hn.1, isTrimmed_trimSpace d, hn.2.2⟩, hs, hh⟩
          · by_cases hTi : getClassAttr c = TitleClass
            · simp only [hTi, e7, e8, e9, e10, if_false, if_true] at h
              cases hd : firstChildData c with
              | error e => simp [hd] at h
              | ok d =>
                simp only [hd] at h
                injection h with h
                subst h
                exact ⟨⟨isTrimmed_trimSpace d, hn.2.1, hn.2.2⟩, hs, hh⟩
            · simp only [hS, hH, hT, hA, hTi, if_false] at h
              injection h with h
              subst h
              exact ⟨hn, hs, hh⟩
  · rw [parseChild_of_not_element _ c hE] at h
    injection h with h
    subst h
    exact ⟨hn, hs, hh⟩

theorem parseLoop_trimmed (cs : List Node) (st st1 : ParseState) (ht : st.trimmed)
    (h : parseLoop st cs = .ok st1) : st1.trimmed := by
  induction cs generalizing st with
  | nil =>
    simp only [parseLoop] at h
    injection h with h
    subst h
    exact ht
  | cons c cs ih =>
    simp only [parseLoop] at h
    cases hc : parseChild st c with
    | error e => simp [hc] at h
    | ok st2 =>
      simp only [hc] at h
      exact ih st2 (parseChild_trimmed st st2 c ht hc) h

theorem parse_trimmed (doc : Node) (e : Option ParseError) (nb1 : Notebook)
    (h : Parse Notebook.empty doc = .ok (e, nb1)) : nb1.trimmed := by
  have h0 : Notebook.empty.trimmed :=
    ⟨isTrimmed_nil, isTrimmed_nil, fun s hm => by simp [Notebook.empty] at hm⟩
  unfold Parse at h
  cases hf : findFirstNodeByClass doc "bodyContainer".toList with
  | none =>
    simp only [hf] at h
    injection h with h
    injection h with _ h
    rw [← h]
    exact h0
  | some bc =>
    simp only [hf] at h
    cases hl : parseLoop (ParseState.init Notebook.empty) bc.children with
    | error e => simp [hl] at h
    | ok st =>
      simp only [hl] at h
      have ht : st.trimmed := parseLoop_trimmed _ _ _
        ⟨h0, fun s hs => by simp [ParseState.init] at hs,
          fun x hx => by simp [ParseState.init] at hx⟩ hl
      unfold parseFinish at h
      cases hs : st.crtSection with
      | none => simp [hs] at h
      | some sec =>
        simp only [hs] at h
        injection h with h
        injection h with _ h
        rw [← h]
        exact Notebook.trimmed_flushSection st.nb sec st.crtHighlight ht.1 (ht.2.1 sec hs) ht.2.2

/-- C13. With white-space strings `w1` and `w2`: replacing the first-child text `t` of a
`bookTitle`, `authors`, `sectionHeading` or `noteText` child of the container by
`w1 ++ t ++ w2`, or that of a `noteHeading` child by `w1 ++ t`, does not change what
`Parse` returns (notebook, error or panic); and in what `Parse` returns on the empty
notebook the title, the author, every section title and every highlight's `Text` and
`Note` have no leading and no trailing white space. -/
theorem C13_whitespace_independence (nb : Notebook) (doc : Node) (i : Nat)
    (w1 w2 : GoString) (h1 : ∀ c ∈ w1, IsSpace c = true) (h2 : ∀ c ∈ w2, IsSpace c = true) :
    Parse nb (editContainer (modifyAt (padChild w1 w2) i) doc) = Parse nb doc ∧
    ∀ e nb1, Parse Notebook.empty doc = .ok (e, nb1) →
      isTrimmed nb1.Title ∧ isTrimmed nb1.Author ∧
      ∀ s, some s ∈ nb1.Sections → isTrimmed s.Title ∧
        ∀ h, some h ∈ s.Highlights → isTrimmed h.Text ∧ isTrimmed h.Note := by
  refine ⟨?_, fun e nb1 hp => parse_trimmed doc e nb1 hp⟩
  apply parse_editContainer
  intro st cs
  exact parseLoop_modifyAt _ (parseChild_padChild w1 w2 h1 h2) i cs st

/-- C13 at the scenario document with white space added to the title marker, the section
marker, a header and a text body: the padded document differs and `Parse` returns the
same notebook, whose text fields are trimmed. -/
theorem C13_whitespace_independence_witness :
    Parse Notebook.empty scenarioPadded = Parse Notebook.empty scenarioDoc ∧
    (findFirstNodeByClass scenarioPadded "bodyContainer".toList).map
        (fun bc => bc.children.map firstChildText) ≠
      (findFirstNodeByClass scenarioDoc "bodyContainer".toList).map
        (fun bc => bc.children.map firstChildText) ∧
    ∀ e nb1, Parse Notebook.empty scenarioDoc = .ok (e, nb1) →
      isTrimmed nb1.Title ∧ isTrimmed nb1.Author ∧
      ∀ s, some s ∈ nb1.Sections → isTrimmed s.Title ∧
        ∀ h, some h ∈ s.Highlights → isTrimmed h.Text ∧ isTrimmed h.Note :=
  ⟨((C13_whitespace_independence Notebook.empty _ 1 "\n\t ".toList "  ".toList
        (by decide) (by decide)).1).trans
    (((C13_whitespace_independence Notebook.empty _ 4 " ".toList "\n".toList
        (by decide) (by decide)).1).trans
      (((C13_whitespace_independence Notebook.empty _ 5 "\n  ".toList "\t".toList
          (by decide) (by decide)).1).trans
        ((C13_whitespace_independence Notebook.empty scenarioDoc 6 [] " \n".toList
          (by decide) (by decide)).1))),
   by decide,
   (C13_whitespace_independence Notebook.empty scenarioDoc 0 [] [] (by decide) (by decide)).2⟩

/-! ### The safe domain of `Parse` -/

theorem firstChildData_of_nonempty (c : Node) (h : c.children.isEmpty = false) :
    firstChildData c = .ok (firstChildText c) := by
  unfold firstChildData firstChildText
  cases hc : c.children with
  | nil => simp [hc] at h
  | cons y ys => rfl

theorem isHeader_eq_false_of_class (word : GoString) (c : Node)
    (h : ¬ (c.type = NodeType.ElementNode ∧ getClassAttr c = HighlightClass)) :
    isHeader word c = false := by
  rw [Bool.eq_false_iff]
  intro hc
  obtain ⟨hE, hH, _, _⟩ := (isHeader_iff word c).1 hc
  exact h ⟨hE, hH⟩

theorem stepFlags_of_other (f : Bool × Bool) (c : Node)
    (h1 : hasClassLabel SectionClass c = false)
    (h2 : isHeader "Highlight".toList c = false) : stepFlags f c = f := by
  simp only [stepFlags, h1, h2, Bool.false_eq_true, if_false]

/-- One step of the loop on the safe domain: no panic, and the two cursors are non-nil
as `stepFlags` says. -/
theorem parseChild_safe (st : ParseState) (f : Bool × Bool) (c : Node)
    (h1 : st.crtSection.isSome = f.1) (h2 : st.crtHighlight.isSome = f.2)
    (h3 : f.1 = false → f.2 = false)
    (hchild : c.type = NodeType.ElementNode → getClassAttr c ∈ recognizedClasses →
      c.children.isEmpty = false)
    (hsec : hasClassLabel HighlightClass c = true → f.1 = true)
    (htext : hasClassLabel NoteTextClass c = true → f.2 = true) :
    ∃ st1, parseChild st c = .ok st1 ∧ st1.crtSection.isSome = (stepFlags f c).1 ∧
      st1.crtHighlight.isSome = (stepFlags f c).2 ∧
      ((stepFlags f c).1 = false → (stepFlags f c).2 = false) := by
  obtain ⟨nb, so, ho, b⟩ := st
  obtain ⟨f1, f2⟩ := f
  simp only at h1 h2 h3 hsec htext
  have e1 : ¬ HighlightClass = SectionClass := by decide
  have e2 : ¬ NoteTextClass = SectionClass := by decide
  have e3 : ¬ NoteTextClass = HighlightClass := by decide
  have e4 : ¬ AuthorClass = SectionClass := by decide
  have e5 : ¬ AuthorClass = HighlightClass := by decide
  have e7 : ¬ TitleClass = SectionClass := by decide
  have e8 : ¬ TitleClass = HighlightClass := by decide
  by_cases hE : c.type = NodeType.ElementNode
  · by_cases hS : getClassAttr c = SectionClass
    · have hd := firstChildData_of_nonempty c (hchild hE (by simp [recognizedClasses, hS]))
      have hf : stepFlags (f1, f2) c = (true, false) := by
        simp [stepFlags, hasClassLabel, hE, hS]
      rw [parseChild_section _ c _ hE hS hd, hf]
      refine ⟨_, rfl, rfl, ?_, by simp⟩
      cases so with
      | none =>
        have : f2 = false := h3 (by simpa using h1.symm)
        simpa [this] using h2
      | some sec => rfl
    · have hns : hasClassLabel SectionClass c = false := by
        simp [hasClassLabel, hE, hS]
      by_cases hH : getClassAttr c = HighlightClass
      · have hd := firstChildData_of_nonempty c (hchild hE (by simp [recognizedClasses, hH]))
        have hf1 : f1 = true := hsec (by simp [hasClassLabel, hE, hH])
        subst hf1
        obtain ⟨sec, rfl⟩ := Option.isSome_iff_exists.1 h1
        by_cases hp : HasPrefix (TrimLeftFunc (firstChildText c) IsSpace) "Highlight".toList = true
        · have hh : isHeader "Highlight".toList c = true :=
            (isHeader_iff _ c).2 ⟨hE, hH, hd, hp⟩
          have hf : stepFlags (true, f2) c = (true, true) := by
            simp only [stepFlags, hns, hh, Bool.false_eq_true, if_false, if_true]
          rw [parseChild_highlight_header nb sec ho b c hh, hf]
          exact ⟨_, rfl, rfl, rfl, by simp⟩
        · have hh : isHeader "Highlight".toList c = false := by
            rw [Bool.eq_false_iff]
            intro hc
            exact hp ((isHeader_iff _ c).1 hc).2.2.2
          rw [stepFlags_of_other _ c hns hh]
          by_cases hq : HasPrefix (TrimLeftFunc (firstChildText c) IsSpace) "Note".toList = true
          · rw [parseChild_note _ c _ hE hH hd hq]
            exact ⟨_, rfl, ⟨h1, h2, h3⟩⟩
          · refine ⟨{ nb := nb, crtSection := some sec, crtHighlight := ho, insideNote := b },
              ?_, h1, h2, h3⟩
            simp only [parseChild, hE, hH, e1, hd, hp, hq, ne_eq, not_true_eq_false, if_false,
              if_true, Bool.false_eq_true]
      · have hh : isHeader "Highlight".toList c = false :=
          isHeader_eq_false_of_class _ c (fun h => hH h.2)
        rw [stepFlags_of_other _ c hns hh]
        by_cases hT : getClassAttr c = NoteTextClass
        · have hd := firstChildData_of_nonempty c (hchild hE (by simp [recognizedClasses, hT]))
          have hf2 : f2 = true := htext (by simp [hasClassLabel, hE, hT])
          subst hf2
          obtain ⟨h0, rfl⟩ := Option.isSome_iff_exists.1 h2
          rw [parseChild_noteText_some _ c _ h0 hE hT (parseTextNode_of_class c _ hT hd) rfl]
          refine ⟨_, rfl, ?_, ?_, h3⟩
          · cases b <;> exact h1
          · cases b <;> rfl
        · by_cases hA : getClassAttr c = AuthorClass
          · have hd := firstChildData_of_nonempty c
              (hchild hE (by simp [recognizedClasses, hA]))
            rw [parseChild_author _ c _ hE hA hd]
            exact ⟨_, rfl, ⟨h1, h2, h3⟩⟩
          · by_cases hTi : getClassAttr c = TitleClass
            · have hd := firstChildData_of_nonempty c
                (hchild hE (by simp [recognizedClasses, hTi]))
              rw [parseChild_title _ c _ hE hTi hd]
              exact ⟨_, rfl, ⟨h1, h2, h3⟩⟩
            · refine ⟨{ nb := nb, crtSection := so, crtHighlight := ho, insideNote := b },
                ?_, h1, h2, h3⟩
              simp only [parseChild, hE, hS, hH, hT, hA, hTi, ne_eq, not_true_eq_false,
                if_false]
  · have hns : hasClassLabel SectionClass c = false := by
      simp [hasClassLabel, hE]
    have hh : isHeader "Highlight".toList c = false :=
      isHeader_eq_false_of_class _ c (fun h => hE h.1)
    rw [stepFlags_of_other _ c hns hh, parseChild_of_not_element _ c hE]
    exact ⟨_, rfl, ⟨h1, h2, h3⟩⟩

theorem parseLoop_safe (cs : List Node) (st : ParseState) (f : Bool × Bool)
    (h1 : st.crtSection.isSome = f.1) (h2 : st.crtHighlight.isSome = f.2)
    (h3 : f.1 = false → f.2 = false)
    (hchild : ∀ c ∈ cs, c.type = NodeType.ElementNode → getClassAttr c ∈ recognizedClasses →
      c.children.isEmpty = false)
    (hsec : ∀ i c, cs[i]? = some c → hasClassLabel HighlightClass c = true →
      (cursorFlags f (cs.take i)).1 = true)
    (htext : ∀ i c, cs[i]? = some c → hasClassLabel NoteTextClass c = true →
      (cursorFlags f (cs.take i)).2 = true) :
    ∃ st1, parseLoop st cs = .ok st1 ∧ st1.crtSection.isSome = (cursorFlags f cs).1 := by
  induction cs generalizing st f with
  | nil => exact ⟨st, rfl, h1⟩
  | cons c cs ih =>
    obtain ⟨st2, h4, h5, h6, h7⟩ := parseChild_safe st f c h1 h2 h3
      (hchild c (List.mem_cons_self _ _))
      (fun hc => hsec 0 c (by simp) hc) (fun hc => htext 0 c (by simp) hc)
    obtain ⟨st1, h8, h9⟩ := ih st2 (stepFlags f c) h5 h6 h7
      (fun x hx => hchild x (List.mem_cons_of_mem _ hx))
      (fun i x hx hc => hsec (i + 1) x (by simpa using hx) hc)
      (fun i x hx hc => htext (i + 1) x (by simpa using hx) hc)
    exact ⟨st1, by simp only [parseLoop, h4, h8], h9⟩

theorem cursorFlags_take_succ (f : Bool × Bool) (cs : List Node) (n : Nat) :
    cursorFlags f (cs.take (n + 1)) =
      (cs[n]?.map (stepFlags (cursorFlags f (cs.take n)))).getD (cursorFlags f (cs.take n)) := by
  unfold cursorFlags
  rw [List.take_succ, List.foldl_append]
  cases cs[n]? <;> rfl

theorem stepFlags_fst_of_fst (g : Bool × Bool) (c : Node) (h : g.1 = true) :
    (stepFlags g c).1 = true := by
  unfold stepFlags
  split_ifs <;> simp [h]

theorem stepFlags_snd_of_snd (g : Bool × Bool) (c : Node) (h : g.2 = true)
    (hc : hasClassLabel SectionClass c = false) : (stepFlags g c).2 = true := by
  unfold stepFlags
  simp only [hc, Bool.false_eq_true, if_false]
  split_ifs
  · rfl
  · exact h

theorem hasClassLabel_section_of_isHeader (word : GoString) (c : Node)
    (h : isHeader word c = true) : hasClassLabel SectionClass c = false := by
  obtain ⟨hE, hH, _, _⟩ := (isHeader_iff word c).1 h
  have e1 : ¬ HighlightClass = SectionClass := by decide
  simp [hasClassLabel, hE, hH, e1]

/-- Once a section marker has been passed, a section stays started. -/
theorem cursorFlags_fst_of_section (f : Bool × Bool) (cs : List Node) (p : Nat)
    (hp : (cs[p]?).any (hasClassLabel SectionClass) = true) (n : Nat) (hn : p + 1 ≤ n) :
    (cursorFlags f (cs.take n)).1 = true := by
  induction n, hn using Nat.le_induction with
  | base =>
    rw [cursorFlags_take_succ]
    cases hc : cs[p]? with
    | none => simp [hc] at hp
    | some c =>
      simp only [hc, Option.any_some] at hp
      simp [stepFlags, hp]
  | succ n _ ih =>
    rw [cursorFlags_take_succ]
    cases hc : cs[n]? with
    | none => simpa using ih
    | some c => simpa using stepFlags_fst_of_fst _ c ih

/-- After a `Highlight` header a highlight stays current up to the next section marker. -/
theorem cursorFlags_snd_of_header (f : Bool × Bool) (cs : List Node) (j i : Nat)
    (hj : (cs[j]?).any (isHeader "Highlight".toList) = true)
    (hk : ∀ k < i, j < k → (cs[k]?).any (hasClassLabel SectionClass) = false)
    (n : Nat) (hn : j + 1 ≤ n) (hi : n ≤ i) :
    (cursorFlags f (cs.take n)).2 = true := by
  induction n, hn using Nat.le_induction with
  | base =>
    rw [cursorFlags_take_succ]
    cases hc : cs[j]? with
    | none => simp [hc] at hj
    | some c =>
      simp only [hc, Option.any_some] at hj
      have hs := hasClassLabel_section_of_isHeader _ c hj
      simp only [Option.map_some', Option.getD_some, stepFlags, hs, hj, Bool.false_eq_true,
        if_false, if_true]
  | succ n hn ih =>
    rw [cursorFlags_take_succ]
    have ih2 := ih (by omega)
    cases hc : cs[n]? with
    | none => simpa using ih2
    | some c =>
      have hs := hk n (by omega) (by omega)
      simp only [hc, Option.any_some] at hs
      simpa using stepFlags_snd_of_snd _ c ih2 hs

/-- C18. On the safe domain `Parse` does not panic and returns a nil error: the container
`bc` exists, every element child of `bc` with a recognized class label has a first child,
a section marker (at position `p`) precedes every `noteHeading` and `noteText` child, and
every `noteText` child (at position `i`) is preceded by a `Highlight` header (at position
`j < i`) with no section marker between the two. -/
theorem C18_safe_domain (nb : Notebook) (doc bc : Node) (p : Nat)
    (hbc : findFirstNodeByClass doc "bodyContainer".toList = some bc)
    (hchild : ∀ c ∈ bc.children, c.type = NodeType.ElementNode →
      getClassAttr c ∈ recognizedClasses → c.children.isEmpty = false)
    (hp : (bc.children[p]?).any (hasClassLabel SectionClass) = true)
    (hpre : ∀ k < p, (bc.children[k]?).any
      (fun c => hasClassLabel HighlightClass c || hasClassLabel NoteTextClass c) = false)
    (htext : ∀ i < bc.children.length,
      (bc.children[i]?).any (hasClassLabel NoteTextClass) = true →
      ∃ j < i, (bc.children[j]?).any (isHeader "Highlight".toList) = true ∧
        ∀ k < i, j < k → (bc.children[k]?).any (hasClassLabel SectionClass) = false) :
    ∃ nb1, Parse nb doc = .ok (none, nb1) := by
  have e1 : ¬ HighlightClass = SectionClass := by decide
  have e2 : ¬ NoteTextClass = SectionClass := by decide
  have hlt : ∀ i c, bc.children[i]? = some c →
      (hasClassLabel HighlightClass c || hasClassLabel NoteTextClass c) = true → p < i := by
    intro i c hc hcl
    rcases Nat.lt_trichotomy i p with h | h | h
    · have := hpre i h
      simp [hc, hcl] at this
    · subst h
      simp only [hc, Option.any_some, hasClassLabel, Bool.and_eq_true, decide_eq_true_eq] at hp
      simp only [hasClassLabel, hp.1, hp.2, decide_True, Bool.true_and, Bool.or_eq_true,
        decide_eq_true_eq] at hcl
      rcases hcl with hcl | hcl
      · exact absurd hcl.symm e1
      · exact absurd hcl.symm e2
    · exact h
  obtain ⟨st1, h1, h2⟩ := parseLoop_safe bc.children (ParseState.init nb) (false, false)
    rfl rfl (fun _ => rfl) hchild
    (fun i c hc hcl =>
      cursorFlags_fst_of_section _ _ p hp i (hlt i c hc (by simp [hcl])))
    (fun i c hc hcl => by
      have hi : i < bc.children.length := (List.getElem?_eq_some.1 hc).1
      obtain ⟨j, hj, hh, hk⟩ := htext i hi (by simp [hc, hcl])
      exact cursorFlags_snd_of_header _ _ j i hh hk i (by omega) (le_refl _))
  have hpl : p < bc.children.length := by
    cases hc : bc.children[p]? with
    | none => simp [hc] at hp
    | some c => exact (List.getElem?_eq_some.1 hc).1
  have h3 := cursorFlags_fst_of_section (false, false) bc.children p hp
    bc.children.length (by omega)
  rw [List.take_length] at h3
  rw [h3] at h2
  obtain ⟨sec, hsec⟩ := Option.isSome_iff_exists.1 h2
  exact ⟨flushSection st1.nb sec st1.crtHighlight, by
    simp only [Parse, hbc, h1, parseFinish, hsec]⟩

/-- C18 at the scenario document: its section marker is the child at position 4. -/
theorem C18_safe_domain_witness :
    ∃ nb1, Parse Notebook.empty scenarioDoc = .ok (none, nb1) :=
  C18_safe_domain Notebook.empty scenarioDoc scenarioContainer 4 rfl
    (by decide) (by decide) (by decide) (by decide)

/-! ### No nil section -/

theorem parseChild_sections_no_nil (st st1 : ParseState) (c : Node)
    (hn : none ∉ st.nb.Sections) (h : parseChild st c = .ok st1) :
    none ∉ st1.nb.Sections := by
  cases hm : isSectionMarker c with
  | false => rw [(parseChild_frame_sections st st1 c hm h).1]; exact hn
  | true =>
    simp only [isSectionMarker, Bool.and_eq_true, decide_eq_true_eq] at hm
    cases hd : firstChildData c with
    | error e =>
      rw [parseChild_section_error st c e hm.1 hm.2 hd] at h
      cases h
    | ok d =>
      rw [parseChild_section st c d hm.1 hm.2 hd] at h
      injection h with h
      subst h
      cases hs : st.crtSection with
      | none => simpa [hs] using hn
      | some sec => simpa [hs, flushSection] using hn

theorem parseLoop_sections_no_nil (cs : List Node) (st st1 : ParseState)
    (hn : none ∉ st.nb.Sections) (h : parseLoop st cs = .ok st1) :
    none ∉ st1.nb.Sections := by
  induction cs generalizing st with
  | nil =>
    simp only [parseLoop] at h
    injection h with h
    subst h
    exact hn
  | cons c cs ih =>
    simp only [parseLoop] at h
    cases hc : parseChild st c with
    | error e => simp [hc] at h
    | ok st2 =>
      simp only [hc] at h
      exact ih st2 (parseChild_sections_no_nil st st2 c hn hc) h

/-- From the empty notebook, `Parse` never puts a nil entry into `Sections`. -/
theorem parse_sections_no_nil (doc : Node) (e : Option ParseError) (nb1 : Notebook)
    (h : Parse Notebook.empty doc = .ok (e, nb1)) : none ∉ nb1.Sections := by
  unfold Parse at h
  cases hf : findFirstNodeByClass doc "bodyContainer".toList with
  | none =>
    simp only [hf] at h
    injection h with h
    injection h with _ h
    rw [← h]
    simp [Notebook.empty]
  | some bc =>
    simp only [hf] at h
    cases hl : parseLoop (ParseState.init Notebook.empty) bc.children with
    | error e => simp [hl] at h
    | ok st =>
      simp only [hl] at h
      have hn := parseLoop_sections_no_nil _ _ _
        (by simp [ParseState.init, Notebook.empty]) hl
      unfold parseFinish at h
      cases hs : st.crtSection with
      | none => simp [hs] at h
      | some sec =>
        simp only [hs] at h
        injection h with h
        injection h with _ h
        rw [← h]
        simpa [flushSection] using hn

/-! ### The note flag -/

/-- A completing step on a child that is not a `noteText` element keeps a set note flag
set: among all children, only a `noteText` child clears it. -/
theorem parseChild_keeps_note_flag (st st1 : ParseState) (c : Node)
    (h : parseChild st c = .ok st1) (hf : st.insideNote = true)
    (hc : hasClassLabel NoteTextClass c = false) : st1.insideNote = true := by
  obtain ⟨nb, so, ho, b⟩ := st
  simp only at hf
  subst hf
  by_cases hE : c.type = NodeType.ElementNode
  · have hT : ¬ getClassAttr c = NoteTextClass := by
      simpa [hasClassLabel, hE] using hc
    unfold parseChild at h
    simp only [hE, hT, ne_eq, not_true_eq_false, if_false] at h
    repeat' (split at h)
    all_goals (first | (injection h with h; subst h; rfl) | (simp at h))
  · rw [parseChild_of_not_element _ c hE] at h
    injection h with h
    subst h
    rfl

/-- A completing step on a `noteText` child leaves the note flag cleared. -/
theorem parseChild_noteText_clears_flag (st st1 : ParseState) (c : Node)
    (h : parseChild st c = .ok st1) (hc : hasClassLabel NoteTextClass c = true) :
    st1.insideNote = false := by
  simp only [hasClassLabel, Bool.and_eq_true, decide_eq_true_eq] at hc
  cases ht : parseTextNode c with
  | error e =>
    have h2 : ¬ NoteTextClass = SectionClass := by decide
    have h3 : ¬ NoteTextClass = HighlightClass := by decide
    simp [parseChild, hc.1, hc.2, ht, h2, h3] at h
  | ok t =>
    cases hh : st.crtHighlight with
    | none =>
      rw [parseChild_noteText_panic st c t hc.1 hc.2 ht hh] at h
      cases h
    | some h0 =>
      rw [parseChild_noteText_some st c t h0 hc.1 hc.2 ht hh] at h
      injection h with h
      subst h
      cases hb : st.insideNote <;> simp [hb]

/-- A completing step sets a cleared note flag only on a `noteHeading` child whose text
starts with `Note`. -/
theorem parseChild_sets_note_flag (st st1 : ParseState) (c : Node)
    (h : parseChild st c = .ok st1) (hf : st.insideNote = false)
    (hs : st1.insideNote = true) : isHeader "Note".toList c = true := by
  obtain ⟨nb, so, ho, b⟩ := st
  simp only at hf
  subst hf
  by_cases hH : c.type = NodeType.ElementNode ∧ getClassAttr c = HighlightClass
  · obtain ⟨hE, hH⟩ := hH
    have e1 : ¬ HighlightClass = SectionClass := by decide
    cases hd : firstChildData c with
    | error e => simp [parseChild, hE, hH, e1, hd] at h
    | ok d =>
      have hd2 := firstChildData_eq c d hd
      subst hd2
      by_cases hq : HasPrefix (TrimLeftFunc (firstChildText c) IsSpace) "Note".toList = true
      · exact (isHeader_iff _ c).2 ⟨hE, hH, hd, hq⟩
      · simp only [parseChild, hE, hH, e1, hd, hq, ne_eq, not_true_eq_false, if_false,
          if_true, Bool.false_eq_true] at h
        repeat' (split at h)
        all_goals (first | (injection h with h; subst h; simp at hs) | (simp at h))
  · by_cases hE : c.type = NodeType.ElementNode
    · have hH2 : ¬ getClassAttr c = HighlightClass := fun hc => hH ⟨hE, hc⟩
      unfold parseChild at h
      simp only [hE, hH2, ne_eq, not_true_eq_false, if_false] at h
      repeat' (split at h)
      all_goals (first | (injection h with h; subst h; simp at hs) | (simp at h))
    · rw [parseChild_of_not_element _ c hE] at h
      injection h with h
      subst h
      simp at hs

/-- Over any run of children without a `noteText` element, a set note flag stays set. -/
theorem parseLoop_keeps_note_flag (cs : List Node) (st st1 : ParseState)
    (h : parseLoop st cs = .ok st1) (hf : st.insideNote = true)
    (hc : ∀ c ∈ cs, hasClassLabel NoteTextClass c = false) : st1.insideNote = true := by
  induction cs generalizing st with
  | nil =>
    simp only [parseLoop] at h
    injection h with h
    subst h
    exact hf
  | cons c cs ih =>
    simp only [parseLoop] at h
    cases hx : parseChild st c with
    | error e => simp [hx] at h
    | ok st2 =>
      simp only [hx] at h
      exact ih st2 h
        (parseChild_keeps_note_flag st st2 c hx hf (hc c (List.mem_cons_self _ _)))
        (fun y hy => hc y (List.mem_cons_of_mem _ hy))

/-- A `Note` header, a `Highlight` header and a `noteText` child, with non-element nodes
between them, from a state with a current section and a current highlight. -/
theorem parseLoop_note_highlight_text (nb : Notebook) (sec : Section) (h1 : Highlight)
    (b : Bool) (noteHeader header2 body : Node) (ws1 ws2 : List Node)
    (hn : isHeader "Note".toList noteHeader = true)
    (h2 : isHeader "Highlight".toList header2 = true)
    (hb : isMarker NoteTextClass body = true)
    (hw1 : ∀ w ∈ ws1, w.type ≠ NodeType.ElementNode)
    (hw2 : ∀ w ∈ ws2, w.type ≠ NodeType.ElementNode) :
    parseLoop { nb := nb, crtSection := some sec, crtHighlight := some h1, insideNote := b }
        (noteHeader :: (ws1 ++ [header2])) = .ok
      { nb := nb
        crtSection := some { Title := sec.Title, Highlights := sec.Highlights ++ [some h1] }
        crtHighlight := some (parseHighlightNode header2)
        insideNote := true } ∧
    parseLoop { nb := nb, crtSection := some sec, crtHighlight := some h1, insideNote := b }
        (noteHeader :: (ws1 ++ header2 :: (ws2 ++ [body]))) = .ok
      { nb := nb
        crtSection := some { Title := sec.Title, Highlights := sec.Highlights ++ [some h1] }
        crtHighlight := some
          { Color := (parseHighlightNode header2).Color
            Page := (parseHighlightNode header2).Page
            Location := (parseHighlightNode header2).Location
            Text := []
            Note := TrimSpace (firstChildText body) }
        insideNote := false } := by
  constructor
  · simp only [parseLoop, parseChild_note_header _ noteHeader hn]
    rw [parseLoop_skip_non_elements ws1 _ _ hw1]
    simp only [parseLoop, parseChild_highlight_header _ _ _ _ header2 h2]
    simp [pendingHighlights]
  · simp only [parseLoop, parseChild_note_header _ noteHeader hn]
    rw [parseLoop_skip_non_elements ws1 _ _ hw1]
    simp only [parseLoop, parseChild_highlight_header _ _ _ _ header2 h2]
    rw [parseLoop_skip_non_elements ws2 _ _ hw2]
    simp only [parseLoop, parseChild_text_body _ _ _ _ body hb]
    simp [pendingHighlights, parseHighlightNode_text]

/-- A document whose element children are title and author markers, one group, and then
a `Note` header, a `Highlight` header and a `noteText` child: the group's highlights keep
their notes, and the text goes to the `Note` of the last highlight, whose `Text` stays
empty. -/
theorem parse_note_highlight_text (doc bc : Node) (pre : List Node) (g : Group)
    (noteHeader header2 body : Node)
    (hbc : findFirstNodeByClass doc "bodyContainer".toList = some bc)
    (hch : bc.children.filter (fun c => c.type = NodeType.ElementNode) =
      pre ++ (g.nodes ++ [noteHeader, header2, body]))
    (hpre : ∀ c ∈ pre, (isMarker TitleClass c || isMarker AuthorClass c) = true)
    (hg : g.wellFormed = true)
    (hn : isHeader "Note".toList noteHeader = true)
    (h2 : isHeader "Highlight".toList header2 = true)
    (hb : isMarker NoteTextClass body = true) :
    ∃ nb1, Parse Notebook.empty doc = .ok (none, nb1) ∧
      nb1.Sections = [some
        { Title := TrimSpace (firstChildText g.marker)
          Highlights := g.items.map (fun it => some it.highlight) ++ [some
            { Color := (parseHighlightNode header2).Color
              Page := (parseHighlightNode header2).Page
              Location := (parseHighlightNode header2).Location
              Text := []
              Note := TrimSpace (firstChildText body) }] }] := by
  obtain ⟨nb0, p1, p2⟩ := parseLoop_preamble pre (ParseState.init Notebook.empty) hpre
  have hs : ParseState.settled { ParseState.init Notebook.empty with nb := nb0 } := ⟨rfl, rfl⟩
  obtain ⟨st1, g1, g2, g3, g4⟩ := parseLoop_group g _ hs hg
  obtain ⟨nb1, so, ho, b⟩ := st1
  obtain ⟨s1, s2⟩ := g2
  simp only at s1 s2 g3
  subst s1
  obtain ⟨sec, rfl⟩ := Option.isSome_iff_exists.1 g3
  obtain ⟨hl, rfl⟩ := Option.isSome_iff_exists.1 (s2 ▸ g3)
  have hview : nb1.Sections ++
      [some { Title := sec.Title, Highlights := sec.Highlights ++ [some hl] }] =
      [some g.section] := by
    have := g4
    simp only [sectionsView, ParseState.init, Notebook.empty] at this p2
    simpa [p2] using this
  have hnil : nb1.Sections = [] := by
    cases hx : nb1.Sections with
    | nil => rfl
    | cons x xs =>
      rw [hx] at hview
      simp at hview
  rw [hnil, List.nil_append] at hview
  simp only [List.cons.injEq, Option.some.injEq, and_true] at hview
  have hT : sec.Title = TrimSpace (firstChildText g.marker) := by
    have := congrArg Section.Title hview
    simpa [Group.section] using this
  have hH : sec.Highlights ++ [some hl] = g.items.map (fun it => some it.highlight) := by
    have := congrArg Section.Highlights hview
    simpa [Group.section] using this
  have hscen := (parseLoop_note_highlight_text nb1 sec hl false noteHeader header2 body [] []
    hn h2 hb (fun _ h => by simp at h) (fun _ h => by simp at h)).2
  simp only [List.nil_append] at hscen
  have hloop : parseLoop (ParseState.init Notebook.empty) bc.children = .ok
      { nb := nb1
        crtSection := some { Title := sec.Title, Highlights := sec.Highlights ++ [some hl] }
        crtHighlight := some
          { Color := (parseHighlightNode header2).Color
            Page := (parseHighlightNode header2).Page
            Location := (parseHighlightNode header2).Location
            Text := []
            Note := TrimSpace (firstChildText body) }
        insideNote := false } := by
    rw [parseLoop_filter_element, hch, parseLoop_append _ _ _ _ p1,
      parseLoop_append _ _ _ _ g1]
    exact hscen
  refine ⟨flushSection nb1
      { Title := sec.Title, Highlights := sec.Highlights ++ [some hl] }
      (some
        { Color := (parseHighlightNode header2).Color
          Page := (parseHighlightNode header2).Page
          Location := (parseHighlightNode header2).Location
          Text := []
          Note := TrimSpace (firstChildText body) }),
    by simp only [Parse, hbc, hloop, parseFinish], ?_⟩
  simp [flushSection, hnil, hT, hH]

/-- C20. The note flag set by a `Note` header is cleared only by the next `noteText`
child. From a state with current section `sec` and current highlight `h1`, a `Note`
header, a `Highlight` header `header2` and a `noteText` child `body`, with any
non-element nodes between them: after `header2` the flag is still set and `h1` has been
appended to the section as it was (its `Note` untouched); after `body` the current
highlight is the one of `header2` with an empty `Text` and the trimmed text of `body` as
`Note`, and the flag is cleared. For every state and every child: a completing step on a
child that is not a `noteText` element keeps a set flag set (so does any run of such
children), a completing step on a `noteText` element leaves the flag cleared, and a
cleared flag is set by a `Note` header only. For every document whose container holds, as
element children, title and author markers, one well-formed group and then the three
children: `Parse` returns no error and the one section lists the group's highlights
unchanged, followed by the highlight of `header2` with an empty `Text` and the trimmed
text as `Note`. -/
theorem C20_note_flag_survives_highlight_header (st : ParseState) (sec : Section)
    (h1 : Highlight) (noteHeader header2 body : Node) (ws1 ws2 : List Node)
    (hs : st.crtSection = some sec) (hh : st.crtHighlight = some h1)
    (hn : isHeader "Note".toList noteHeader = true)
    (h2 : isHeader "Highlight".toList header2 = true)
    (hb : isMarker NoteTextClass body = true)
    (hw1 : ∀ w ∈ ws1, w.type ≠ NodeType.ElementNode)
    (hw2 : ∀ w ∈ ws2, w.type ≠ NodeType.ElementNode) :
    parseLoop st (noteHeader :: (ws1 ++ [header2])) = .ok
      { nb := st.nb
        crtSection := some { Title := sec.Title, Highlights := sec.Highlights ++ [some h1] }
        crtHighlight := some (parseHighlightNode header2)
        insideNote := true } ∧
    parseLoop st (noteHeader :: (ws1 ++ header2 :: (ws2 ++ [body]))) = .ok
      { nb := st.nb
        crtSection := some { Title := sec.Title, Highlights := sec.Highlights ++ [some h1] }
        crtHighlight := some
          { Color := (parseHighlightNode header2).Color
            Page := (parseHighlightNode header2).Page
            Location := (parseHighlightNode header2).Location
            Text := []
            Note := TrimSpace (firstChildText body) }
        insideNote := false } ∧
    (∀ (s s1 : ParseState) (c : Node), parseChild s c = .ok s1 → s.insideNote = true →
      hasClassLabel NoteTextClass c = false → s1.insideNote = true) ∧
    (∀ (s s1 : ParseState) (cs : List Node), parseLoop s cs = .ok s1 →
      s.insideNote = true → (∀ c ∈ cs, hasClassLabel NoteTextClass c = false) →
      s1.insideNote = true) ∧
    (∀ (s s1 : ParseState) (c : Node), parseChild s c = .ok s1 →
      hasClassLabel NoteTextClass c = true → s1.insideNote = false) ∧
    (∀ (s s1 : ParseState) (c : Node), parseChild s c = .ok s1 → s.insideNote = false →
      s1.insideNote = true → isHeader "Note".toList c = true) ∧
    (∀ (doc bc : Node) (pre : List Node) (g : Group),
      findFirstNodeByClass doc "bodyContainer".toList = some bc →
      bc.children.filter (fun c => c.type = NodeType.ElementNode) =
        pre ++ (g.nodes ++ [noteHeader, header2, body]) →
      (∀ c ∈ pre, (isMarker TitleClass c || isMarker AuthorClass c) = true) →
      g.wellFormed = true →
      ∃ nb1, Parse Notebook.empty doc = .ok (none, nb1) ∧
        nb1.Sections = [some
          { Title := TrimSpace (firstChildText g.marker)
            Highlights := g.items.map (fun it => some it.highlight) ++ [some
              { Color := (parseHighlightNode header2).Color
                Page := (parseHighlightNode header2).Page
                Location := (parseHighlightNode header2).Location
                Text := []
                Note := TrimSpace (firstChildText body) }] }]) := by
  obtain ⟨nb, so, ho, b⟩ := st
  simp only at hs hh
  subst hs hh
  have hscen := parseLoop_note_highlight_text nb sec h1 b noteHeader header2 body ws1 ws2
    hn h2 hb hw1 hw2
  exact ⟨hscen.1, hscen.2,
    fun s s1 c h hf hc => parseChild_keeps_note_flag s s1 c h hf hc,
    fun s s1 cs h hf hc => parseLoop_keeps_note_flag cs s s1 h hf hc,
    fun s s1 c h hc => parseChild_noteText_clears_flag s s1 c h hc,
    fun s s1 c h hf hs1 => parseChild_sets_note_flag s s1 c h hf hs1,
    fun doc bc pre g hbc hch hpre hg =>
      parse_note_highlight_text doc bc pre g noteHeader header2 body hbc hch hpre hg hn h2 hb⟩

/-- C20 at a state with a current highlight and white-space text between the three
children; with a section marker between the `Note` header and the `Highlight` header,
which does not clear the flag either; and at a whole document: the text that follows the
second header ends up in its `Note`, its `Text` stays empty and the first highlight has
no note. -/
theorem C20_note_flag_survives_highlight_header_witness :
    parseLoop stateWithHighlight
      [ elemNode "div" "noteHeading" [textNode "Note - Location 954"],
        textNode "\n",
        elemNode "div" "noteHeading" [textNode "Highlight(",
          elemNode "span" "highlight_blue" [textNode "blue"], textNode ") - Location 20"],
        textNode "\n  ",
        elemNode "div" "noteText" [textNode " late text "] ] = .ok
      { nb := stateWithHighlight.nb
        crtSection := some
          { Title := "Ch 1".toList
            Highlights := [some { Color := "yellow".toList, Page := 115, Location := 954,
                                  Text := "some text".toList, Note := [] }] }
        crtHighlight := some
          { Color := "blue".toList, Page := 0, Location := 20, Text := [],
            Note := "late text".toList }
        insideNote := false } ∧
    parseLoop stateWithHighlight
      [ elemNode "div" "noteHeading" [textNode "Note - Location 954"],
        elemNode "div" "sectionHeading" [textNode "Ch 2"],
        elemNode "div" "noteHeading" [textNode "Highlight(",
          elemNode "span" "highlight_blue" [textNode "blue"], textNode ") - Location 20"],
        elemNode "div" "noteText" [textNode " late text "] ] = .ok
      { nb :=
          { Title := "My Book".toList, Author := []
            Sections := [some
              { Title := "Ch 1".toList
                Highlights := [some { Color := "yellow".toList, Page := 115, Location := 954,
                                      Text := "some text".toList, Note := [] }] }] }
        crtSection := some { Title := "Ch 2".toList, Highlights := [] }
        crtHighlight := some
          { Color := "blue".toList, Page := 0, Location := 20, Text := [],
            Note := "late text".toList }
        insideNote := false } ∧
    Parse Notebook.empty docNoteThenHighlight = .ok (none,
      { Title := [], Author := [],
        Sections := [some
          { Title := "Ch 1".toList
            Highlights :=
              [ some { Color := "yellow".toList, Page := 0, Location := 10,
                       Text := "first".toList, Note := [] },
                some { Color := "blue".toList, Page := 0, Location := 20, Text := [],
                       Note := "late text".toList } ] }] }) :=
  ⟨(C20_note_flag_survives_highlight_header stateWithHighlight _ _
      (elemNode "div" "noteHeading" [textNode "Note - Location 954"])
      (elemNode "div" "noteHeading" [textNode "Highlight(",
          elemNode "span" "highlight_blue" [textNode "blue"], textNode ") - Location 20"])
      (elemNode "div" "noteText" [textNode " late text "])
      [textNode "\n"] [textNode "\n  "]
      rfl rfl (by decide) (by decide) (by decide) (by decide) (by decide)).2.1,
   by rfl, by rfl⟩

end KindleNotes
